import Mathlib

/-!
Verification of the `tokenize-css.js` stylesheet tokenizer.

The script is embedded shallowly: JavaScript numbers are modelled by `ℚ`
(the paths verified here only perform field operations, `Math.round`,
`Math.min`/`Math.max`, truncating `%` and decimal formatting, all of which
are exact on rationals; the WCAG luminance and the role-score formulas,
which use transcendental functions, are modelled over `ℝ`), strings by
`String`, the mutable tables of the script by explicit lists passed through
the pipeline.  JavaScript's stable `Array#sort` with a numeric comparator is
modelled by `List.insertionSort` on the non-strict relation
`comparator ≤ 0`, which is stable and therefore produces the same output
for the total preorders used by the script.
-/

set_option maxRecDepth 8000

namespace TokenizeCss

/-- RGBA color record, channels 0–255 and alpha 0–1 as in the script. -/
structure Rgba where
  r : ℚ
  g : ℚ
  b : ℚ
  a : ℚ
deriving DecidableEq

/-- HSL(+alpha) record: hue in degrees, saturation and lightness in 0–1. -/
structure Hsla where
  h : ℚ
  s : ℚ
  l : ℚ
  a : ℚ
deriving DecidableEq

/-- The script's `clamp(v, lo, hi)` = `Math.min(hi, Math.max(lo, v))`. -/
def clampQ (v lo hi : ℚ) : ℚ := min hi (max lo v)

/-- JavaScript `Math.round`: round half toward positive infinity. -/
def jsRound (x : ℚ) : ℤ := ⌊x + 1/2⌋

/-- JavaScript truncation toward zero (used by the `%` operator). -/
def jsTrunc (x : ℚ) : ℤ := if 0 ≤ x then ⌊x⌋ else ⌈x⌉

/-- JavaScript `%` on numbers: `x - m * trunc(x / m)`. -/
def jsMod (x m : ℚ) : ℚ := x - m * (jsTrunc (x / m) : ℚ)

/-- Model of `rgbaToHsl` from the script: standard RGB→HSL conversion.
The `switch (max)` dispatch compares against `R`, `G`, `B` in that order. -/
def rgbaToHsl (c : Rgba) : Hsla :=
  let R := c.r / 255
  let G := c.g / 255
  let B := c.b / 255
  let mx := max R (max G B)
  let mn := min R (min G B)
  let l := (mx + mn) / 2
  let d := mx - mn
  if d = 0 then ⟨0, 0, l, c.a⟩
  else
    let s := if l > 1/2 then d / (2 - mx - mn) else d / (mx + mn)
    let h :=
      if mx = R then (G - B) / d + (if G < B then 6 else 0)
      else if mx = G then (B - R) / d + 2
      else (R - G) / d + 4
    ⟨h * 60, s, l, c.a⟩

/-- Model of `hslToRgba` from the script: hue wraps modulo 360, saturation and
lightness are clamped to `[0,1]`; the achromatic case rounds `l*255`. -/
def hslToRgba (c : Hsla) : Rgba :=
  let h := jsMod (jsMod c.h 360 + 360) 360
  let s := clampQ c.s 0 1
  let l := clampQ c.l 0 1
  if s = 0 then
    let v : ℚ := (jsRound (l * 255) : ℤ)
    ⟨v, v, v, c.a⟩
  else
    let q := if l < 1/2 then l * (1 + s) else l + s - l * s
    let p := 2 * l - q
    let hk := h / 360
    let conv := fun (x : ℚ) =>
      let y := jsMod (jsMod x 1 + 1) 1
      if y < 1/6 then p + (q - p) * 6 * y
      else if y < 1/2 then q
      else if y < 2/3 then p + (q - p) * (2/3 - y) * 6
      else p
    ⟨(jsRound (conv (hk + 1/3) * 255) : ℤ), (jsRound (conv hk * 255) : ℤ),
      (jsRound (conv (hk - 1/3) * 255) : ℤ), c.a⟩

/-- Model of `clampRgb` from the script: round RGB channels to integers in `[0,255]`,
clamp alpha to `[0,1]`. -/
def clampRgb (c : Rgba) : Rgba :=
  ⟨clampQ ((jsRound c.r : ℤ) : ℚ) 0 255, clampQ ((jsRound c.g : ℤ) : ℚ) 0 255,
    clampQ ((jsRound c.b : ℤ) : ℚ) 0 255, clampQ c.a 0 1⟩

/-- Model of `invertRgb` from the script: channel inversion clamped to `[10,245]`. -/
def invertRgb (c : Rgba) : Rgba :=
  ⟨clampQ (255 - c.r) 10 245, clampQ (255 - c.g) 10 245, clampQ (255 - c.b) 10 245, c.a⟩

/-- Model of `toDarkTone` from the script: HSL-based darkening with 10% desaturation. -/
def toDarkTone (c : Rgba) : Rgba :=
  let hsl := rgbaToHsl c
  clampRgb (hslToRgba ⟨hsl.h, clampQ (hsl.s * 0.9) 0 1, clampQ (1 - hsl.l * 0.9) 0.1 0.92, hsl.a⟩)

/-- Model of `toDark` from the script: `invert` and `tone` are dispatched on the mode
string, every other mode falls through to the lightness-flip strategy. -/
def toDark (c : Rgba) (mode : String) : Rgba :=
  if mode = "invert" then clampRgb (invertRgb c)
  else if mode = "tone" then toDarkTone c
  else
    let hsl := rgbaToHsl c
    clampRgb (hslToRgba
      ⟨hsl.h, if hsl.s < 0.08 then 0 else hsl.s, clampQ (1 - hsl.l) 0.08 0.92, hsl.a⟩)

/-- HSL lightness of a color, `rgbaToHsl(c).l`. -/
def lightnessOf (c : Rgba) : ℚ := (rgbaToHsl c).l

/-- HSL saturation of a color, `rgbaToHsl(c).s`. -/
def saturationOf (c : Rgba) : ℚ := (rgbaToHsl c).s

theorem abs_jsRound_sub (x : ℚ) : |(jsRound x : ℚ) - x| ≤ 1/2 := by
  have h1 : (jsRound x : ℚ) ≤ x + 1/2 := Int.floor_le (x + 1/2)
  have h2 : x + 1/2 - 1 < (jsRound x : ℚ) := Int.sub_one_lt_floor (x + 1/2)
  rw [abs_le]
  constructor <;> linarith

theorem clampQ_eq_self {x lo hi : ℚ} (h1 : lo ≤ x) (h2 : x ≤ hi) : clampQ x lo hi = x := by
  unfold clampQ
  rw [max_eq_right h1, min_eq_right h2]

theorem clampQ_le_right (x lo hi : ℚ) : clampQ x lo hi ≤ hi := min_le_left _ _

theorem le_clampQ (x lo hi : ℚ) (h : lo ≤ hi) : lo ≤ clampQ x lo hi :=
  le_min h (le_max_left _ _)

theorem abs_clampQ_sub {x t lo hi : ℚ} (h1 : lo ≤ t) (h2 : t ≤ hi) :
    |clampQ x lo hi - t| ≤ |x - t| := by
  unfold clampQ
  rcases le_total x lo with hx | hx
  · rw [max_eq_left hx, min_eq_right (h1.trans h2)]
    rw [abs_of_nonpos (by linarith), abs_of_nonpos (by linarith)]
    linarith
  · rw [max_eq_right hx]
    rcases le_total x hi with hy | hy
    · rw [min_eq_right hy]
    · rw [min_eq_left hy]
      rw [abs_of_nonneg (by linarith), abs_of_nonneg (by linarith)]
      linarith

theorem rgbaToHsl_gray (v a : ℚ) : rgbaToHsl ⟨v, v, v, a⟩ = ⟨0, 0, v / 255, a⟩ := by
  unfold rgbaToHsl
  simp only [max_self, min_self, sub_self, if_true]
  have : (v / 255 + v / 255) / 2 = v / 255 := by ring
  rw [this]

theorem jsRound_eq_of_bounds {x : ℚ} {n : ℤ} (h1 : (n : ℚ) ≤ x + 1/2) (h2 : x + 1/2 < n + 1) :
    jsRound x = n := by
  unfold jsRound
  exact Int.floor_eq_iff.mpr ⟨h1, by exact_mod_cast h2⟩

theorem jsRound_intCast (n : ℤ) : jsRound (n : ℚ) = n :=
  jsRound_eq_of_bounds (by linarith) (by norm_num)

theorem jsRound_le_jsRound {x y : ℚ} (h : x ≤ y) : jsRound x ≤ jsRound y :=
  Int.floor_le_floor (by linarith)

theorem flipRound_ge (x : ℚ) : 20 ≤ jsRound (clampQ x 0.08 0.92 * 255) := by
  have h1 : (0.08 : ℚ) ≤ clampQ x 0.08 0.92 := le_clampQ _ _ _ (by norm_num)
  have h2 : jsRound (20.4 : ℚ) ≤ jsRound (clampQ x 0.08 0.92 * 255) :=
    jsRound_le_jsRound (by linarith)
  have h3 : jsRound (20.4 : ℚ) = 20 := jsRound_eq_of_bounds (by norm_num) (by norm_num)
  omega

theorem flipRound_le (x : ℚ) : jsRound (clampQ x 0.08 0.92 * 255) ≤ 235 := by
  have h1 : clampQ x 0.08 0.92 ≤ 0.92 := clampQ_le_right _ _ _
  have h2 : jsRound (clampQ x 0.08 0.92 * 255) ≤ jsRound (234.6 : ℚ) :=
    jsRound_le_jsRound (by linarith)
  have h3 : jsRound (234.6 : ℚ) = 235 := jsRound_eq_of_bounds (by norm_num) (by norm_num)
  omega

theorem clampQ_band_mem_unit (x : ℚ) :
    clampQ (clampQ x 0.08 0.92) 0 1 = clampQ x 0.08 0.92 :=
  clampQ_eq_self (le_trans (by norm_num) (le_clampQ _ _ _ (by norm_num)))
    (le_trans (clampQ_le_right _ _ _) (by norm_num))

/-- The flip branch of `toDark` on a neutral color (saturation < 0.08)
produces the gray whose channel is `round(255 * clamp(1 - l, 0.08, 0.92))`. -/
theorem toDark_flip_neutral (c : Rgba) (hs : saturationOf c < 0.08) :
    toDark c "flip" =
      ⟨((jsRound (clampQ (1 - lightnessOf c) 0.08 0.92 * 255) : ℤ) : ℚ),
       ((jsRound (clampQ (1 - lightnessOf c) 0.08 0.92 * 255) : ℤ) : ℚ),
       ((jsRound (clampQ (1 - lightnessOf c) 0.08 0.92 * 255) : ℤ) : ℚ),
       clampQ (rgbaToHsl c).a 0 1⟩ := by
  unfold saturationOf at hs
  unfold lightnessOf
  simp only [toDark]
  rw [if_neg (show ¬ ("flip" : String) = "invert" from by decide),
    if_neg (show ¬ ("flip" : String) = "tone" from by decide), if_pos hs]
  simp only [hslToRgba]
  rw [show clampQ (0 : ℚ) 0 1 = 0 from by norm_num [clampQ], if_pos rfl]
  simp only [clampRgb]
  rw [clampQ_band_mem_unit]
  rw [jsRound_intCast]
  have hlo : (0 : ℚ) ≤ ((jsRound (clampQ (1 - (rgbaToHsl c).l) 0.08 0.92 * 255) : ℤ) : ℚ) := by
    have := flipRound_ge (1 - (rgbaToHsl c).l)
    exact_mod_cast le_trans (show (0:ℤ) ≤ 20 by norm_num) this
  have hhi : ((jsRound (clampQ (1 - (rgbaToHsl c).l) 0.08 0.92 * 255) : ℤ) : ℚ) ≤ 255 := by
    have := flipRound_le (1 - (rgbaToHsl c).l)
    exact_mod_cast le_trans this (show (235:ℤ) ≤ 255 by norm_num)
  rw [clampQ_eq_self hlo hhi]

/-- Claim C4 (amended): on neutral colors (HSL saturation below 0.08) whose
lightness lies inside the clamp band `[0.08, 0.92]`, applying the `flip`
dark-variant transform twice returns a color whose lightness is within
`1/255` (the quantization error of two 8-bit roundings) of the original
lightness, and whose HSL saturation is exactly 0 after each application.
Outside the band the clamp destroys the original lightness, refuting the
unrestricted claim (see the counterexample theorem). -/
theorem c4_flip_involution_on_neutrals (c : Rgba)
    (hs : saturationOf c < 0.08)
    (hl1 : 0.08 ≤ lightnessOf c) (hl2 : lightnessOf c ≤ 0.92) :
    |lightnessOf (toDark (toDark c "flip") "flip") - lightnessOf c| ≤ 1/255 ∧
    saturationOf (toDark c "flip") = 0 ∧
    saturationOf (toDark (toDark c "flip") "flip") = 0 := by
  have hstep := toDark_flip_neutral c hs
  have hgray : rgbaToHsl (toDark c "flip") =
      ⟨0, 0, ((jsRound (clampQ (1 - lightnessOf c) 0.08 0.92 * 255) : ℤ) : ℚ) / 255,
        clampQ (rgbaToHsl c).a 0 1⟩ := by
    rw [hstep]
    exact rgbaToHsl_gray _ _
  have hsat1 : saturationOf (toDark c "flip") = 0 := by
    unfold saturationOf
    rw [hgray]
  have hlight1 : lightnessOf (toDark c "flip") =
      ((jsRound (clampQ (1 - lightnessOf c) 0.08 0.92 * 255) : ℤ) : ℚ) / 255 := by
    unfold lightnessOf
    rw [hgray]
    rfl
  have hs2 : saturationOf (toDark c "flip") < 0.08 := by
    rw [hsat1]
    norm_num
  have hstep2 := toDark_flip_neutral (toDark c "flip") hs2
  have hgray2 : rgbaToHsl (toDark (toDark c "flip") "flip") =
      ⟨0, 0,
        ((jsRound (clampQ (1 - lightnessOf (toDark c "flip")) 0.08 0.92 * 255) : ℤ) : ℚ) / 255,
        clampQ (rgbaToHsl (toDark c "flip")).a 0 1⟩ := by
    rw [hstep2]
    exact rgbaToHsl_gray _ _
  have hsat2 : saturationOf (toDark (toDark c "flip") "flip") = 0 := by
    unfold saturationOf
    rw [hgray2]
  refine ⟨?_, hsat1, hsat2⟩
  have hlight2 : lightnessOf (toDark (toDark c "flip") "flip") =
      ((jsRound (clampQ (1 - lightnessOf (toDark c "flip")) 0.08 0.92 * 255) : ℤ) : ℚ) / 255 := by
    unfold lightnessOf
    rw [hgray2]
    rfl
  -- first flip: the clamp is the identity and one rounding error accrues
  have hclamp1 : clampQ (1 - lightnessOf c) 0.08 0.92 = 1 - lightnessOf c :=
    clampQ_eq_self (by linarith) (by linarith)
  have hv255 : |((jsRound (clampQ (1 - lightnessOf c) 0.08 0.92 * 255) : ℤ) : ℚ) / 255 -
      (1 - lightnessOf c)| ≤ 1/510 := by
    rw [hclamp1]
    have heq : ((jsRound ((1 - lightnessOf c) * 255) : ℤ) : ℚ) / 255 - (1 - lightnessOf c) =
        (((jsRound ((1 - lightnessOf c) * 255) : ℤ) : ℚ) - (1 - lightnessOf c) * 255) / 255 := by
      ring
    rw [heq, abs_div, show |(255 : ℚ)| = 255 from by norm_num]
    calc |((jsRound ((1 - lightnessOf c) * 255) : ℤ) : ℚ) - (1 - lightnessOf c) * 255| / 255
        ≤ (1/2) / 255 := by
          gcongr
          exact abs_jsRound_sub _
    _ = 1/510 := by norm_num
  -- second flip: clamping only moves the value closer to the original l
  have hmid : |clampQ (1 - lightnessOf (toDark c "flip")) 0.08 0.92 - lightnessOf c| ≤ 1/510 := by
    refine (abs_clampQ_sub hl1 hl2).trans ?_
    rw [hlight1]
    have : 1 - ((jsRound (clampQ (1 - lightnessOf c) 0.08 0.92 * 255) : ℤ) : ℚ) / 255 -
        lightnessOf c =
        -(((jsRound (clampQ (1 - lightnessOf c) 0.08 0.92 * 255) : ℤ) : ℚ) / 255 -
          (1 - lightnessOf c)) := by
      ring
    rw [this, abs_neg]
    exact hv255
  have hw255 : |((jsRound (clampQ (1 - lightnessOf (toDark c "flip")) 0.08 0.92 * 255) : ℤ) : ℚ) /
        255 - clampQ (1 - lightnessOf (toDark c "flip")) 0.08 0.92| ≤ 1/510 := by
    have heq : ((jsRound (clampQ (1 - lightnessOf (toDark c "flip")) 0.08 0.92 * 255) : ℤ) : ℚ) /
        255 - clampQ (1 - lightnessOf (toDark c "flip")) 0.08 0.92 =
        (((jsRound (clampQ (1 - lightnessOf (toDark c "flip")) 0.08 0.92 * 255) : ℤ) : ℚ) -
          clampQ (1 - lightnessOf (toDark c "flip")) 0.08 0.92 * 255) / 255 := by
      ring
    rw [heq, abs_div, show |(255 : ℚ)| = 255 from by norm_num]
    calc |((jsRound (clampQ (1 - lightnessOf (toDark c "flip")) 0.08 0.92 * 255) : ℤ) : ℚ) -
          clampQ (1 - lightnessOf (toDark c "flip")) 0.08 0.92 * 255| / 255
        ≤ (1/2) / 255 := by
          gcongr
          exact abs_jsRound_sub _
    _ = 1/510 := by norm_num
  rw [hlight2]
  calc |((jsRound (clampQ (1 - lightnessOf (toDark c "flip")) 0.08 0.92 * 255) : ℤ) : ℚ) / 255 -
        lightnessOf c|
      ≤ |((jsRound (clampQ (1 - lightnessOf (toDark c "flip")) 0.08 0.92 * 255) : ℤ) : ℚ) / 255 -
          clampQ (1 - lightnessOf (toDark c "flip")) 0.08 0.92| +
        |clampQ (1 - lightnessOf (toDark c "flip")) 0.08 0.92 - lightnessOf c| :=
        abs_sub_le _ _ _
  _ ≤ 1/510 + 1/510 := add_le_add hw255 hmid
  _ = 1/255 := by norm_num

unseal Rat.add Rat.mul Rat.inv Rat.sub Rat.ofScientific in
/-- Witness for C4: the mid gray `rgb(128,128,128)` satisfies the hypotheses
and the double flip keeps its lightness within tolerance. -/
theorem c4_flip_involution_on_neutrals_witness :
    saturationOf ⟨128, 128, 128, 1⟩ < 0.08 ∧
    (|lightnessOf (toDark (toDark ⟨128, 128, 128, 1⟩ "flip") "flip") -
        lightnessOf ⟨128, 128, 128, 1⟩| ≤ 1/255 ∧
      saturationOf (toDark ⟨128, 128, 128, 1⟩ "flip") = 0 ∧
      saturationOf (toDark (toDark ⟨128, 128, 128, 1⟩ "flip") "flip") = 0) :=
  ⟨by decide,
    c4_flip_involution_on_neutrals ⟨128, 128, 128, 1⟩ (by decide) (by decide) (by decide)⟩

unseal Rat.add Rat.mul Rat.inv Rat.sub Rat.ofScientific in
/-- Claim C4 as stated is false: pure black has saturation 0 < 0.08, but the
double flip returns lightness 20/255 ≈ 0.078 instead of 0 — an error far
beyond rounding tolerance, caused by clamping lightness to [0.08, 0.92]. -/
theorem c4_counterexample_black :
    saturationOf ⟨0, 0, 0, 1⟩ < 0.08 ∧
    lightnessOf ⟨0, 0, 0, 1⟩ = 0 ∧
    lightnessOf (toDark (toDark ⟨0, 0, 0, 1⟩ "flip") "flip") = 4/51 ∧
    ¬ |lightnessOf (toDark (toDark ⟨0, 0, 0, 1⟩ "flip") "flip") -
        lightnessOf ⟨0, 0, 0, 1⟩| ≤ 7/100 := by
  refine ⟨by decide, by decide, by decide, ?_⟩
  rw [show lightnessOf (toDark (toDark ⟨0, 0, 0, 1⟩ "flip") "flip") = 4/51 from by decide,
    show lightnessOf ⟨0, 0, 0, 1⟩ = 0 from by decide, sub_zero,
    abs_of_nonneg (show (0:ℚ) ≤ 4/51 from by norm_num)]
  norm_num

/-- Claim C10: the dark-variant transform treats every mode string other than
`invert` and `tone` — including unknown or empty modes — exactly like the
default `flip` strategy; the mode is never validated and no error path
exists. -/
theorem c10_unknown_mode_is_flip (c : Rgba) (mode : String)
    (h1 : mode ≠ "invert") (h2 : mode ≠ "tone") :
    toDark c mode = toDark c "flip" := by
  unfold toDark
  rw [if_neg h1, if_neg h2, if_neg (show ¬ ("flip" : String) = "invert" from by decide),
    if_neg (show ¬ ("flip" : String) = "tone" from by decide)]

/-- Witness for C10 at the unrecognized mode string `banana`. -/
theorem c10_unknown_mode_is_flip_witness :
    ("banana" : String) ≠ "invert" ∧ ("banana" : String) ≠ "tone" ∧
    toDark ⟨10, 20, 30, 1⟩ "banana" = toDark ⟨10, 20, 30, 1⟩ "flip" :=
  ⟨by decide, by decide,
    c10_unknown_mode_is_flip ⟨10, 20, 30, 1⟩ "banana" (by decide) (by decide)⟩

/-! ### Decimal parsing and formatting (JS `parseFloat`, `toFixed`, `String(n)`) -/

/-- Decimal value of a run of digit characters, most significant first. -/
def digitsVal (cs : List Char) : ℕ := cs.foldl (fun a c => 10 * a + (c.toNat - 48)) 0

/-- Decimal digits of `n`, most significant first; fuel-based so that it
reduces in the kernel.  Fuel `n` suffices because `n / 10 < n`. -/
def natDecAux : ℕ → ℕ → List Char
  | 0, _ => []
  | fuel + 1, n => if n = 0 then [] else natDecAux fuel (n / 10) ++ [Char.ofNat (48 + n % 10)]

/-- JavaScript `String(n)` for a natural number. -/
def natDec (n : ℕ) : String := if n = 0 then "0" else String.mk (natDecAux n n)

/-- Strip trailing `'0'` characters, as JS number-to-string never prints
trailing fractional zeros. -/
def stripTrailingZeros (cs : List Char) : List Char :=
  (cs.reverse.dropWhile (fun c => c = '0')).reverse

/-- Render a rational with denominator dividing `10^4` the way JavaScript
prints the number obtained from `+x.toFixed(4)`: shortest decimal form,
trailing zeros and a trailing decimal point stripped (`stripZero`). -/
def fmtQ (q : ℚ) : String :=
  let k : ℤ := ⌊q * 10000⌋
  let m : ℕ := k.natAbs
  let ip := m / 10000
  let fp := m % 10000
  let fpad := List.replicate (4 - (natDec fp).length) '0' ++ (natDec fp).data
  let frac := stripTrailingZeros fpad
  let core := natDec ip ++ (if frac.isEmpty then "" else "." ++ String.mk frac)
  if k < 0 then "-" ++ core else core

/-- JavaScript `x.toFixed(4)` read back as a number: round the magnitude to
the nearest multiple of `10⁻⁴`, ties toward larger magnitude digits as in the
ECMAScript `toFixed` algorithm. -/
def toFixed4 (q : ℚ) : ℚ :=
  if q < 0 then -(((jsRound (-q * 10000) : ℤ) : ℚ) / 10000)
  else ((jsRound (q * 10000) : ℤ) : ℚ) / 10000

/-- Model of `prettifyUnit` from the script: keep up to 4 decimals, strip trailing
zeros and the decimal point, append the unit. -/
def prettifyUnit (n : ℚ) (unit : String) : String := fmtQ (toFixed4 n) ++ unit

/-! ### Length-token grammar

The script matches length tokens with the regular expression
`(-?\d*\.?\d+)(px|rem|em|vh|vw|%|ch)` (anchored and with a trailing `\b` in
its two uses).  The numeric atom `-?\d*\.?\d+`, after backtracking, matches
either `sign? digits ( '.' digits )?` or `sign? '.' digits`; when the
full greedy form is not followed by a unit the engine retries without the
fractional part.  `numCandidates` returns the candidate matches in the
engine's preference order (longest first). -/

/-- JavaScript `\w` word character: ASCII letters, digits, underscore. -/
def wordChar (c : Char) : Bool := c.isAlphanum || c = '_'

/-- Numeric value of `sign? A . B` as parsed by JavaScript `parseFloat`. -/
def numVal (neg : Bool) (A B : List Char) : ℚ :=
  (if neg then -1 else 1) * ((digitsVal A : ℚ) + (digitsVal B : ℚ) / (10 : ℚ) ^ B.length)

/-- Candidate matches of the regex atom `-?\d*\.?\d+` at the head of `cs`,
as `(value, rest)` pairs in backtracking preference order. -/
def numCandidates (cs : List Char) : List (ℚ × List Char) :=
  let p := match cs with
    | '-' :: t => (true, t)
    | _ => (false, cs)
  let neg := p.1
  let cs1 := p.2
  let q := cs1.span Char.isDigit
  let A := q.1
  let cs2 := q.2
  let withDot : List (ℚ × List Char) :=
    match cs2 with
    | '.' :: t =>
      let r := t.span Char.isDigit
      if r.1.isEmpty then [] else [(numVal neg A r.1, r.2)]
    | _ => []
  let plain : List (ℚ × List Char) := if A.isEmpty then [] else [(numVal neg A [], cs2)]
  withDot ++ plain

/-- Match one of `units` at the head of `cs` (lower-cased comparison when
`ci` is set, mirroring the regex `i` flag); returns the canonical unit and
the rest.  The script's unit alternatives are never prefixes of one another,
so the first match is the only one. -/
def unitLookup : List String → Bool → List Char → Option (String × List Char)
  | [], _, _ => none
  | u :: more, ci, cs =>
    let k := u.length
    let pre := cs.take k
    let ok := if ci then pre.map Char.toLower = u.data else pre = u.data
    if ok then some (u, cs.drop k) else unitLookup more ci cs

/-- Units of the conversion regexes, in the alternation order of the source. -/
def convUnits : List String := ["px", "rem", "em", "vh", "vw", "%", "ch"]

/-- Anchored full-string match of `-?\d*\.?\d+` followed by one of `units`
and the end of the string, as in `token.match(/^(-?\d*\.?\d+)(unit…)$/)`. -/
def parseAnchoredAux (units : List String) (ci : Bool) :
    List (ℚ × List Char) → Option (ℚ × String)
  | [] => none
  | (v, rest) :: more =>
    match unitLookup units ci rest with
    | some (u, []) => some (v, u)
    | _ => parseAnchoredAux units ci more

/-- Anchored parse of a single `number + unit` token. -/
def parseAnchored (units : List String) (ci : Bool) (s : String) : Option (ℚ × String) :=
  parseAnchoredAux units ci (numCandidates s.data)

/-- The token parse used by `convertLengthUnitToken`
(`/^(-?\d*\.?\d+)(px|rem|em|vh|vw|%|ch)$/i`, unit lower-cased). -/
def parseTokenNumUnit (s : String) : Option (ℚ × String) := parseAnchored convUnits true s

/-- Conversion context: the script's `rootPx/contextPx/vwPx/vhPx/percentBase/chPx`. -/
structure ConvOpts where
  rootPx : ℚ
  contextPx : ℚ
  vwPx : ℚ
  vhPx : ℚ
  percentBase : ℚ
  chPx : ℚ
deriving DecidableEq

/-- The script's default conversion options (16px root and context, 100px
viewport and percent bases, 1px per ch). -/
def defaultOpts : ConvOpts := ⟨16, 16, 100, 100, 100, 1⟩

/-- Model of `convertLengthUnitToken` from the script: parse `number+unit`; convert
only when the unit equals the pair's `from` unit, first normalizing to
pixels and then re-expressing in the target unit; in every other case the
token is returned unchanged (the `switch` defaults return the token). -/
def convertLengthUnitToken (token uFrom uTo : String) (o : ConvOpts) : String :=
  match parseTokenNumUnit token with
  | none => token
  | some (val, unit) =>
    if unit ≠ uFrom then token
    else
      let px? : Option ℚ :=
        if uFrom = "px" then some val
        else if uFrom = "rem" then some (val * o.rootPx)
        else if uFrom = "em" then some (val * o.contextPx)
        else if uFrom = "vh" then some (val * o.vhPx / 100)
        else if uFrom = "vw" then some (val * o.vwPx / 100)
        else if uFrom = "%" then some (val * o.percentBase / 100)
        else if uFrom = "ch" then some (val * o.chPx)
        else none
      match px? with
      | none => token
      | some px =>
        let out? : Option ℚ :=
          if uTo = "px" then some px
          else if uTo = "rem" then some (px / o.rootPx)
          else if uTo = "em" then some (px / o.contextPx)
          else if uTo = "vh" then some (px / o.vhPx * 100)
          else if uTo = "vw" then some (px / o.vwPx * 100)
          else if uTo = "%" then some (px / o.percentBase * 100)
          else if uTo = "ch" then some (px / o.chPx)
          else none
        match out? with
        | none => token
        | some out => prettifyUnit out uTo

/-- Apply the ordered conversion pairs to one matched token text, re-parsing
after each pair, exactly as the replace callback folds over `pairs`. -/
def applyPairsToToken (pairs : List (String × String)) (o : ConvOpts) (m : String) : String :=
  pairs.foldl (fun out p => convertLengthUnitToken out p.1 p.2 o) m

/-- One attempt of the unanchored token regex
`(-?\d*\.?\d+)(px|rem|em|vh|vw|%|ch)\b` at the current position: number
candidates in preference order, then a unit, then the word boundary (after
a letter unit the next character must not be a word character; after `%`,
which is not a word character, a boundary requires a following word
character).  Returns the matched text and the rest. -/
def scanGo (cs : List Char) : List (ℚ × List Char) → Option (String × List Char)
  | [] => none
  | (_, rest) :: more =>
    match unitLookup convUnits true rest with
    | some (u, rest2) =>
      let lastIsWord : Bool := u != "%"
      let nextIsWord : Bool := match rest2 with
        | [] => false
        | c :: _ => wordChar c
      if lastIsWord != nextIsWord then
        some (String.mk (cs.take (cs.length - rest2.length)), rest2)
      else scanGo cs more
    | none => scanGo cs more

/-- Match attempt of the unanchored token regex at the current position. -/
def scanMatchAt (cs : List Char) : Option (String × List Char) :=
  scanGo cs (numCandidates cs)

/-- Global regex replacement of length tokens: walk the text, replace each
match by `f` applied to the matched text, resume after the match; fuel-based
so that it reduces in the kernel (fuel = input length suffices since each
step consumes at least one character). -/
def replaceTokensAux (f : String → String) : ℕ → List Char → List Char
  | 0, cs => cs
  | _ + 1, [] => []
  | fuel + 1, c :: rest =>
    match scanMatchAt (c :: rest) with
    | some (tok, rest2) => (f tok).data ++ replaceTokensAux f fuel rest2
    | none => c :: replaceTokensAux f fuel rest

/-- String-level wrapper for the token replacement pass. -/
def replaceNumUnitTokens (f : String → String) (s : String) : String :=
  String.mk (replaceTokensAux f s.data.length s.data)

/-- Math-function names recognized by `FN_RE`, in alternation order. -/
def fnNames : List String := ["calc", "min", "max", "clamp"]

/-- Try each function name (case-insensitively) at the head of `cs`,
requiring an immediately following `'('`; returns the name length. -/
def fnTry : List String → List Char → Option ℕ
  | [], _ => none
  | n :: more, cs =>
    let k := n.length
    if (cs.take k).map Char.toLower = n.data ∧ (cs.drop k).head? = some '(' then some k
    else fnTry more cs

/-- Innermost parenthesis level of `FN_RE` (`\([^()]*\)`): no nested parens. -/
def fnInner2 : ℕ → List Char → Option (List Char)
  | 0, _ => none
  | _ + 1, [] => none
  | _ + 1, ')' :: rest => some rest
  | _ + 1, '(' :: _ => none
  | fuel + 1, _ :: rest => fnInner2 fuel rest

/-- Middle level of `FN_RE` (`\((?:[^()]*|\([^()]*\))*\)`). -/
def fnInner1 : ℕ → List Char → Option (List Char)
  | 0, _ => none
  | _ + 1, [] => none
  | _ + 1, ')' :: rest => some rest
  | fuel + 1, '(' :: rest =>
    match fnInner2 fuel rest with
    | some r2 => fnInner1 fuel r2
    | none => none
  | fuel + 1, _ :: rest => fnInner1 fuel rest

/-- Top level of the function body: chunks of non-paren text or one nested
group, closed by `')'`; mirrors `([^()]*|\((?:[^()]*|\([^()]*\))*\))*\)`. -/
def fnBody : ℕ → List Char → Option (List Char)
  | 0, _ => none
  | _ + 1, [] => none
  | _ + 1, ')' :: rest => some rest
  | fuel + 1, '(' :: rest =>
    match fnInner1 fuel rest with
    | some r2 => fnBody fuel r2
    | none => none
  | fuel + 1, _ :: rest => fnBody fuel rest

/-- Match `FN_RE` at the current position: a math-function name, `'('`, the
body grammar, and the closing `')'`; returns the whole matched text and the
rest. -/
def fnMatchAt (cs : List Char) : Option (String × List Char) :=
  match fnTry fnNames cs with
  | none => none
  | some k =>
    match fnBody cs.length (cs.drop (k + 1)) with
    | none => none
    | some rest2 => some (String.mk (cs.take (cs.length - rest2.length)), rest2)

/-- Global replacement pass for `FN_RE`. -/
def fnScanAux (f : String → String) : ℕ → List Char → List Char
  | 0, cs => cs
  | _ + 1, [] => []
  | fuel + 1, c :: rest =>
    match fnMatchAt (c :: rest) with
    | some (tok, rest2) => (f tok).data ++ fnScanAux f fuel rest2
    | none => c :: fnScanAux f fuel rest

/-- Model of `convertUnitsInFunctions` from the script: for every `FN_RE` match,
convert the length tokens inside the matched function text (the function
name contains no digits, so only the argument text changes). -/
def convertUnitsInFunctions (value : String) (pairs : List (String × String)) (o : ConvOpts) :
    String :=
  String.mk (fnScanAux (fun fn => replaceNumUnitTokens (applyPairsToToken pairs o) fn)
    value.data.length value.data)

/-- Model of `convertUnitsInValue` from the script: first the function-aware pass,
then the top-level token replacement over the whole resulting value. -/
def convertUnitsInValue (value : String) (pairs : List (String × String)) (o : ConvOpts) :
    String :=
  let withFns := convertUnitsInFunctions value pairs o
  replaceNumUnitTokens (applyPairsToToken pairs o) withFns

unseal Rat.add Rat.mul Rat.inv Rat.sub Rat.ofScientific in
/-- Claim C5: chained conversion re-matches unit identity per pair: with the
ordered pairs `[px→rem, rem→em]` and `rootPx = contextPx = 16`, the token
`32px` becomes `2rem` after the first pair, which the second pair re-parses
and turns into `2em`; the value `"32px"` therefore converts to `"2em"`. -/
theorem c5_chained_conversion :
    convertUnitsInValue "32px" [("px", "rem"), ("rem", "em")] defaultOpts = "2em" ∧
    convertLengthUnitToken "32px" "px" "rem" defaultOpts = "2rem" ∧
    convertLengthUnitToken "2rem" "rem" "em" defaultOpts = "2em" ∧
    applyPairsToToken [("px", "rem"), ("rem", "em")] defaultOpts "32px" = "2em" := by
  refine ⟨?_, ?_, ?_, ?_⟩ <;> decide

unseal Rat.add Rat.mul Rat.inv Rat.sub Rat.ofScientific in
/-- Claim C6 (amended): conversion recurses into the argument text of
`calc`/`min`/`max`/`clamp` and converts every length token found there with
the same context, leaving the function name and operators unchanged — in
particular `calc(10px + 1rem)` with the single pair `px→rem` and
`rootPx = 16` yields `calc(0.625rem + 1rem)`.  The function interior is
however re-scanned by the subsequent top-level pass, which re-applies the
whole pair list; with a single pair (or any chain whose outputs never feed
an earlier pair's `from` unit) that second pass leaves the converted tokens
unchanged, as here. -/
theorem c6_function_aware_conversion :
    convertUnitsInFunctions "calc(10px + 1rem)" [("px", "rem")] defaultOpts =
      "calc(0.625rem + 1rem)" ∧
    convertUnitsInValue "calc(10px + 1rem)" [("px", "rem")] defaultOpts =
      "calc(0.625rem + 1rem)" := by
  constructor <;> decide

unseal Rat.add Rat.mul Rat.inv Rat.sub Rat.ofScientific in
/-- Counterexample to C6 as stated: the claim that no token inside the
function is converted twice by the subsequent top-level pass is false.
With the ordered pairs `[em→px, rem→em]`, the function-aware pass converts
`calc(1rem)` to `calc(1em)`, and the top-level pass then re-converts that
very token to `16px`, producing `calc(16px)` — a second conversion of a
token inside the function. -/
theorem c6_counterexample_double_conversion :
    convertUnitsInFunctions "calc(1rem)" [("em", "px"), ("rem", "em")] defaultOpts =
      "calc(1em)" ∧
    convertUnitsInValue "calc(1rem)" [("em", "px"), ("rem", "em")] defaultOpts =
      "calc(16px)" ∧
    ("calc(16px)" : String) ≠ "calc(1em)" := by
  refine ⟨?_, ?_, ?_⟩ <;> decide

unseal Rat.add Rat.mul Rat.inv Rat.sub Rat.ofScientific in
/-- Claim C7: conversion failure policy.  A token that does not parse as a
number followed by a supported unit is returned unchanged; a token whose
unit differs from the pair's `from` unit is returned unchanged; no error
path exists (`convertLengthUnitToken` is a total function).  Concretely,
converting `10px` under the pair `rem→px` is a no-op and `1rem` under
`rem→px` with `rootPx = 16` gives `16px`. -/
theorem c7_conversion_failure_policy :
    (∀ (token uFrom uTo : String) (o : ConvOpts),
      parseTokenNumUnit token = none → convertLengthUnitToken token uFrom uTo o = token) ∧
    (∀ (token uFrom uTo : String) (o : ConvOpts) (v : ℚ) (u : String),
      parseTokenNumUnit token = some (v, u) → u ≠ uFrom →
      convertLengthUnitToken token uFrom uTo o = token) ∧
    convertLengthUnitToken "10px" "rem" "px" defaultOpts = "10px" ∧
    convertLengthUnitToken "1rem" "rem" "px" defaultOpts = "16px" := by
  refine ⟨?_, ?_, ?_, ?_⟩
  · intro token uFrom uTo o h
    unfold convertLengthUnitToken
    rw [h]
  · intro token uFrom uTo o v u h hne
    unfold convertLengthUnitToken
    rw [h]
    simp only [if_pos hne]
  · decide
  · decide

/-! ### Color literal parsing and serialization

JavaScript `parseFloat` is modelled by the leading-number parser already
used for length tokens; an unparsable numeric text (JS `NaN`) is modelled
by `0` — `NaN` has no rational representation, and every literal the color
regex `COLOR_RE` feeds into these parsers has parsable numeric parts, so
the two models agree on all reachable inputs. -/

/-- JavaScript `parseFloat`: value of the longest leading decimal number. -/
def jsParseFloat (s : String) : Option ℚ := (numCandidates s.data).head?.map Prod.fst

/-- Leading/trailing-whitespace trim, JS `String#trim`. -/
def trimChars (cs : List Char) : List Char :=
  ((cs.dropWhile Char.isWhitespace).reverse.dropWhile Char.isWhitespace).reverse

/-- JS `String#trim` on strings. -/
def jsTrim (s : String) : String := String.mk (trimChars s.data)

/-- ASCII lower-casing, JS `String#toLowerCase`. -/
def toLowerStr (s : String) : String := String.mk (s.data.map Char.toLower)

/-- Prefix test on the character list, JS `String#startsWith`. -/
def startsWithL (pre : String) (s : String) : Bool := s.data.take pre.length == pre.data

/-- Value of one lower-case hexadecimal digit (`parseInt(⬝, 16)` on one
digit); characters outside `[0-9a-f]` give 0 (JS produces `NaN`, which no
`COLOR_RE` match can contain). -/
def hexDigitVal (c : Char) : ℕ :=
  if '0' ≤ c ∧ c ≤ '9' then c.toNat - 48
  else if 'a' ≤ c ∧ c ≤ 'f' then c.toNat - 87
  else 0

/-- Model of `parseInt(c₁c₂, 16)` for two hex digits. -/
def hexPair (c1 c2 : Char) : ℚ := ((16 * hexDigitVal c1 + hexDigitVal c2 : ℕ) : ℚ)

/-- Model of `hexToRgba` from the script: 3/4-digit short forms expand by digit
duplication, 6/8-digit forms read byte pairs, alpha (4th/8th digit pair)
normalizes by 255, anything else is opaque black.  `hex.replace('#','')`
removes the (first) `#`. -/
def hexToRgba (hex : String) : Rgba :=
  let h := match hex.data with
    | '#' :: rest => rest
    | cs => cs
  match h with
  | [a, b, c] => ⟨hexPair a a, hexPair b b, hexPair c c, 1⟩
  | [a, b, c, d] => ⟨hexPair a a, hexPair b b, hexPair c c, hexPair d d / 255⟩
  | [a, b, c, d, e, f] => ⟨hexPair a b, hexPair c d, hexPair e f, 1⟩
  | [a, b, c, d, e, f, g, h8] => ⟨hexPair a b, hexPair c d, hexPair e f, hexPair g h8 / 255⟩
  | _ => ⟨0, 0, 0, 1⟩

/-- Split a character list on a separator, JS `String#split` (an empty
input yields one empty field). -/
def splitChar (sep : Char) (cs : List Char) : List (List Char) :=
  cs.foldr
    (fun c acc =>
      match acc with
      | [] => [[c]]
      | h :: t => if c = sep then [] :: h :: t else (c :: h) :: t)
    [[]]

/-- Argument list of a functional color literal:
`str.slice(str.indexOf('(')+1, str.lastIndexOf(')')).split(',').map(trim)`. -/
def innerArgs (s : String) : List String :=
  let cs := s.data
  let afterParen := ((cs.dropWhile (fun c => c ≠ '(')).drop 1)
  let mid := ((afterParen.reverse.dropWhile (fun c => c ≠ ')')).drop 1).reverse
  (splitChar ',' mid).map (fun l => String.mk (trimChars l))

/-- JS `parts[i] || dflt`: a missing or empty (falsy) part falls back. -/
def partOr (parts : List String) (i : ℕ) (dflt : String) : String :=
  match parts.get? i with
  | some s => if s = "" then dflt else s
  | none => dflt

/-- Model of `to255` from `rgbStrToRgba`: percentage channels scale by 2.55 and
round, plain channels parse as-is. -/
def to255 (v : String) : ℚ :=
  if v.data.getLast? = some '%' then ((jsRound ((jsParseFloat v).getD 0 * 2.55) : ℤ) : ℚ)
  else (jsParseFloat v).getD 0

/-- Model of `rgbStrToRgba` from the script: channels clamped to `[0,255]`, alpha
(optional fourth argument, default 1) clamped to `[0,1]`. -/
def rgbStrToRgba (str : String) : Rgba :=
  let parts := innerArgs str
  let r := to255 (partOr parts 0 "0")
  let g := to255 (partOr parts 1 "0")
  let b := to255 (partOr parts 2 "0")
  let a := match parts.get? 3 with
    | some s => (jsParseFloat s).getD 0
    | none => 1
  ⟨clampQ r 0 255, clampQ g 0 255, clampQ b 0 255, clampQ a 0 1⟩

/-- Model of `hslStrToRgba` from the script: hue in raw degrees, saturation and
lightness as percentages or bare numbers, optional alpha, then the standard
HSL→RGB conversion. -/
def hslStrToRgba (str : String) : Rgba :=
  let parts := innerArgs str
  let h := (jsParseFloat (partOr parts 0 "0")).getD 0
  let p1 := (parts.get? 1).getD ""
  let s := if p1.data.getLast? = some '%' then (jsParseFloat p1).getD 0 / 100
    else (jsParseFloat (partOr parts 1 "0")).getD 0
  let p2 := (parts.get? 2).getD ""
  let l := if p2.data.getLast? = some '%' then (jsParseFloat p2).getD 0 / 100
    else (jsParseFloat (partOr parts 2 "0")).getD 0
  let a := match parts.get? 3 with
    | some sa => (jsParseFloat sa).getD 0
    | none => 1
  hslToRgba ⟨h, s, l, a⟩

/-- Model of `toRgba` from the script: trim, lower-case, dispatch on the `#`, `rgb`
or `hsl` prefix; anything unrecognized is opaque black. -/
def toRgba (token : String) : Rgba :=
  let t := toLowerStr (jsTrim token)
  if startsWithL "#" t then hexToRgba t
  else if startsWithL "rgb" t then rgbStrToRgba t
  else if startsWithL "hsl" t then hslStrToRgba t
  else ⟨0, 0, 0, 1⟩

/-- Hex digit character for `Number#toString(16)` (lower case). -/
def hexDigitChar (d : ℕ) : Char :=
  if d < 10 then Char.ofNat (48 + d) else Char.ofNat (87 + d)

/-- Hexadecimal digits of `n`, most significant first (fuel-based). -/
def natHexAux : ℕ → ℕ → List Char
  | 0, _ => []
  | fuel + 1, n => if n = 0 then [] else natHexAux fuel (n / 16) ++ [hexDigitChar (n % 16)]

/-- Model of `Number#toString(16)` for a natural number. -/
def natHex (n : ℕ) : String := if n = 0 then "0" else String.mk (natHexAux n n)

/-- Model of `String#padStart(2, '0')`. -/
def padStart2 (s : String) : String :=
  if s.length = 0 then "00" else if s.length = 1 then "0" ++ s else s

/-- The script's `hex(n)` helper: `n.toString(16).padStart(2, '0')`.  The
channels reaching it are the integers produced by `clampRgb` or the hex
parser, so only the integer case of `toString(16)` is modelled. -/
def hexByte (q : ℚ) : String := padStart2 (natHex (⌊q⌋).toNat)

/-- The script's `round(n, p)` helper: `Math.round(n * 10^p) / 10^p`. -/
def roundP (n : ℚ) (p : ℕ) : ℚ := ((jsRound (n * 10 ^ p) : ℤ) : ℚ) / 10 ^ p

/-- Model of `rgbaToCss` from the script: 6-digit hex when alpha is exactly 1,
otherwise `rgba(r, g, b, a)` with alpha rounded to 4 decimal places. -/
def rgbaToCss (c : Rgba) : String :=
  if c.a = 1 then "#" ++ hexByte c.r ++ hexByte c.g ++ hexByte c.b
  else "rgba(" ++ fmtQ c.r ++ ", " ++ fmtQ c.g ++ ", " ++ fmtQ c.b ++ ", " ++
    fmtQ (roundP c.a 4) ++ ")"

/-! ### Durations -/

/-- Model of `toMs` from the script: `parseFloat`, `ms` suffix keeps the value,
otherwise seconds scale by 1000. -/
def toMs (str : String) : ℚ :=
  let n := (jsParseFloat str).getD 0
  if str.data.reverse.take 2 == ['s', 'm'] then n else n * 1000

/-- Model of `x.toFixed(3)` read back as a number (see `toFixed4`). -/
def toFixed3 (q : ℚ) : ℚ :=
  if q < 0 then -(((jsRound (-q * 1000) : ℤ) : ℚ) / 1000)
  else ((jsRound (q * 1000) : ℤ) : ℚ) / 1000

/-- Model of `normalizeDuration` from the script: seconds with at most millisecond
precision, trailing zeros stripped, `s` suffix. -/
def normalizeDuration (str : String) : String := fmtQ (toFixed3 (toMs str / 1000)) ++ "s"

/-! ### Spacing emission (`preferRem`) -/

/-- Model of `preferRem` from the script: a pixel literal whose value satisfies
`px % 4 === 0` is re-expressed as `px / ROOT_SIZE` rem with at most four
decimals and stripped zeros; every other literal is returned unchanged. -/
def preferRem (rootPx : ℚ) (lit : String) : String :=
  match parseAnchored ["px"] false lit with
  | none => lit
  | some (px, _) =>
    if jsMod px 4 = 0 then fmtQ (toFixed4 (px / rootPx)) ++ "rem" else lit

/-! ### Token document emission

The emission section of the script reads the global tables produced by the
collection, role-assignment and naming stages; `EmitState` gathers exactly
those globals (orders are JS-Map iteration orders, maps are association
lists literal → generated name), and `linesRoot`/`linesDark` are the
`linesRoot`/`linesDark` arrays the script pushes line strings into. -/

/-- JS template interpolation of a `Map.get` result (`undefined` prints as
the string `undefined`). -/
def optStr (o : Option String) : String := o.getD "undefined"

/-- JS `x || dflt` for an optional string (both `null` and `""` are falsy). -/
def jsOr (o : Option String) (dflt : String) : String :=
  match o with
  | some s => if s = "" then dflt else s
  | none => dflt

/-- One emitted declaration line: `  name: value;`. -/
def mkDecl (name val : String) : String := "  " ++ name ++ ": " ++ val ++ ";"

/-- The pipeline state the emission stage reads. -/
structure EmitState where
  features : List String
  algorithm : String
  roleOrder : List (String × Option String)
  remainingColors : List String
  ffOrder : List String
  ffMap : List (String × String)
  fsOrder : List String
  fsMap : List (String × String)
  lhOrder : List String
  lhMap : List (String × String)
  fwOrder : List String
  fwMap : List (String × String)
  lsOrder : List String
  lsMap : List (String × String)
  spacingOrder : List String
  spacingMap : List (String × String)
  borderWidthOrder : List String
  borderWidthMap : List (String × String)
  radiusOrder : List String
  radiusMap : List (String × String)
  shadowOrder : List String
  shadowMap : List (String × String)
  durOrder : List String
  durationMap : List (String × String)
  easeOrder : List String
  easeMap : List (String × String)
  rootPx : ℚ

/-- JS `Map#set`: overwrite in place when the key exists, else append. -/
def mapSet (m : List (String × String)) (k v : String) : List (String × String) :=
  if m.any (fun p => p.1 == k) then m.map (fun p => if p.1 == k then (k, v) else p)
  else m ++ [(k, v)]

/-- Model of `semanticMap` from the script: color literal → role variable name, built
over the role entries in order (a literal claimed by several roles keeps its
first position with the last role name). -/
def semanticMap (st : EmitState) : List (String × String) :=
  st.roleOrder.foldl
    (fun m p =>
      match p.2 with
      | some lit => mapSet m lit p.1
      | none => m)
    []

/-- Model of `numericColorMap` from the script: the i-th remaining color gets
`--cNN` with a two-digit zero-padded index. -/
def numericColorMap (st : EmitState) : List (String × String) :=
  st.remainingColors.enum.map (fun p => (p.2, "--c" ++ padStart2 (natDec (p.1 + 1))))

/-- Model of `varToColor` from the script: search the semantic entries, then the
numbered entries, for the variable name. -/
def varToColor (st : EmitState) (v : String) : Option String :=
  match (semanticMap st).find? (fun p => p.2 == v) with
  | some p => some p.1
  | none => ((numericColorMap st).find? (fun p => p.2 == v)).map Prod.fst

/-- Model of `orderedColorVars` from the emission block: role variables that matched
a candidate, then the numbered variables of the remaining colors. -/
def orderedColorVars (st : EmitState) : List String :=
  (st.roleOrder.filterMap (fun p => if p.2.isSome then some p.1 else none)) ++
  (st.remainingColors.map (fun c => optStr (List.lookup c (numericColorMap st))))

/-- Colors block of `linesRoot`. -/
def colorLinesRoot (st : EmitState) : List String :=
  if "colors" ∈ st.features then
    "  /* Colors */" ::
      (orderedColorVars st).map
        (fun v => mkDecl v (rgbaToCss (toRgba (jsOr (varToColor st v) "#000"))))
  else []

/-- Colors block of `linesDark`: the same variables through the dark
transform. -/
def colorLinesDark (st : EmitState) : List String :=
  if "colors" ∈ st.features then
    "  /* Colors */" ::
      (orderedColorVars st).map
        (fun v => mkDecl v (rgbaToCss (toDark (toRgba (jsOr (varToColor st v) "#000"))
          st.algorithm)))
  else []

/-- Font-family block (root only: the dark-side lines are commented out in
the script). -/
def ffLines (st : EmitState) : List String :=
  if st.ffOrder ≠ [] then
    "\n  /* Typography — font families */" ::
      st.ffOrder.map (fun v => mkDecl (optStr (List.lookup v st.ffMap)) v)
  else []

/-- Font-size block of the root scope. -/
def fsLines (st : EmitState) : List String :=
  if st.fsOrder ≠ [] then
    "\n  /* Typography — font sizes */" ::
      st.fsOrder.map (fun v => mkDecl (optStr (List.lookup v st.fsMap)) v)
  else []

/-- Line-height block of the root scope. -/
def lhLines (st : EmitState) : List String :=
  if st.lhOrder ≠ [] then
    "\n  /* Typography — line heights */" ::
      st.lhOrder.map (fun v => mkDecl (optStr (List.lookup v st.lhMap)) v)
  else []

/-- Font-weight block of the root scope. -/
def fwLines (st : EmitState) : List String :=
  if st.fwOrder ≠ [] then
    "\n  /* Typography — font weights */" ::
      st.fwOrder.map (fun v => mkDecl (optStr (List.lookup v st.fwMap)) v)
  else []

/-- Letter-spacing block of the root scope. -/
def lsLines (st : EmitState) : List String :=
  if st.lsOrder ≠ [] then
    "\n  /* Typography — letter spacing */" ::
      st.lsOrder.map (fun v => mkDecl (optStr (List.lookup v st.lsMap)) v)
  else []

/-- Typography blocks of the root scope. -/
def typographyRoot (st : EmitState) : List String :=
  if "typography" ∈ st.features then
    ffLines st ++ fsLines st ++ lhLines st ++ fwLines st ++ lsLines st
  else []

/-- Typography block of the dark scope: font sizes, line heights, weights
and letter spacings duplicated verbatim — but no font families. -/
def typographyDark (st : EmitState) : List String :=
  if "typography" ∈ st.features then
    if st.fsOrder ≠ [] ∨ st.lhOrder ≠ [] ∨ st.fwOrder ≠ [] ∨ st.lsOrder ≠ [] then
      "\n  /* Typography (same as light) */" ::
        (st.fsOrder.map (fun v => mkDecl (optStr (List.lookup v st.fsMap)) v) ++
         st.lhOrder.map (fun v => mkDecl (optStr (List.lookup v st.lhMap)) v) ++
         st.fwOrder.map (fun v => mkDecl (optStr (List.lookup v st.fwMap)) v) ++
         st.lsOrder.map (fun v => mkDecl (optStr (List.lookup v st.lsMap)) v))
    else []
  else []

/-- Spacing block (root only); values go through `preferRem`. -/
def spacingLines (st : EmitState) : List String :=
  if "spacing" ∈ st.features ∧ st.spacingOrder ≠ [] then
    "\n  /* Spacing (by frequency) */" ::
      st.spacingOrder.map
        (fun lit => mkDecl (optStr (List.lookup lit st.spacingMap)) (preferRem st.rootPx lit))
  else []

/-- Border-width block (root only). -/
def borderLines (st : EmitState) : List String :=
  if "borders" ∈ st.features ∧ st.borderWidthOrder ≠ [] then
    "\n  /* Border widths */" ::
      st.borderWidthOrder.map (fun w => mkDecl (optStr (List.lookup w st.borderWidthMap)) w)
  else []

/-- Radius block (root only). -/
def radiusLines (st : EmitState) : List String :=
  if "radius" ∈ st.features ∧ st.radiusOrder ≠ [] then
    "\n  /* Radii */" ::
      st.radiusOrder.map (fun r => mkDecl (optStr (List.lookup r st.radiusMap)) r)
  else []

/-- Shadows block of the root scope. -/
def shadowLinesRoot (st : EmitState) : List String :=
  if "shadows" ∈ st.features ∧ st.shadowOrder ≠ [] then
    "\n  /* Shadows */" ::
      st.shadowOrder.map (fun s => mkDecl (optStr (List.lookup s st.shadowMap)) s)
  else []

/-- Shadows block of the dark scope: identical literals. -/
def shadowLinesDark (st : EmitState) : List String :=
  if "shadows" ∈ st.features ∧ st.shadowOrder ≠ [] then
    "\n  /* Shadows (same as light; adjust if needed) */" ::
      st.shadowOrder.map (fun s => mkDecl (optStr (List.lookup s st.shadowMap)) s)
  else []

/-- Duration lines (shared shape of the root and dark blocks). -/
def durationDecls (st : EmitState) : List String :=
  st.durOrder.map (fun d => mkDecl (optStr (List.lookup d st.durationMap)) (normalizeDuration d))

/-- Easing lines (shared shape of the root and dark blocks). -/
def easeDecls (st : EmitState) : List String :=
  st.easeOrder.map (fun e => mkDecl (optStr (List.lookup e st.easeMap)) e)

/-- Motion blocks of the root scope. -/
def motionLinesRoot (st : EmitState) : List String :=
  if "motion" ∈ st.features ∧ (st.durOrder ≠ [] ∨ st.easeOrder ≠ []) then
    (if st.durOrder ≠ [] then "\n  /* Durations */" :: durationDecls st else []) ++
    (if st.easeOrder ≠ [] then "\n  /* Easing */" :: easeDecls st else [])
  else []

/-- Motion blocks of the dark scope: identical to the root blocks. -/
def motionLinesDark (st : EmitState) : List String :=
  if "motion" ∈ st.features ∧ (st.durOrder ≠ [] ∨ st.easeOrder ≠ []) then
    (if st.durOrder ≠ [] then "\n  /* Durations */" :: durationDecls st else []) ++
    (if st.easeOrder ≠ [] then "\n  /* Easing */" :: easeDecls st else [])
  else []

/-- The `linesRoot` array of the script, in push order. -/
def linesRoot (st : EmitState) : List String :=
  colorLinesRoot st ++ typographyRoot st ++ spacingLines st ++ borderLines st ++
    radiusLines st ++ shadowLinesRoot st ++ motionLinesRoot st

/-- The `linesDark` array of the script, in push order. -/
def linesDark (st : EmitState) : List String :=
  colorLinesDark st ++ typographyDark st ++ shadowLinesDark st ++ motionLinesDark st

/-- Claim C3 (amended): in every run, the dark-theme scope contains, for
each font-size, line-height, font-weight and letter-spacing token, each
shadow token and each motion token (durations and easings) present in the
default scope, a declaration with the identical value; each color token's
dark-scope value is the dark-variant transform of its default value.  Font
FAMILY tokens are the exception: they are emitted into the default scope
only (their dark-side emission is commented out in the script). -/
theorem c3_dark_block_contents (st : EmitState) :
    (∀ v ∈ st.fsOrder, "typography" ∈ st.features →
      mkDecl (optStr (List.lookup v st.fsMap)) v ∈ linesRoot st ∧
      mkDecl (optStr (List.lookup v st.fsMap)) v ∈ linesDark st) ∧
    (∀ v ∈ st.lhOrder, "typography" ∈ st.features →
      mkDecl (optStr (List.lookup v st.lhMap)) v ∈ linesRoot st ∧
      mkDecl (optStr (List.lookup v st.lhMap)) v ∈ linesDark st) ∧
    (∀ v ∈ st.fwOrder, "typography" ∈ st.features →
      mkDecl (optStr (List.lookup v st.fwMap)) v ∈ linesRoot st ∧
      mkDecl (optStr (List.lookup v st.fwMap)) v ∈ linesDark st) ∧
    (∀ v ∈ st.lsOrder, "typography" ∈ st.features →
      mkDecl (optStr (List.lookup v st.lsMap)) v ∈ linesRoot st ∧
      mkDecl (optStr (List.lookup v st.lsMap)) v ∈ linesDark st) ∧
    (∀ s ∈ st.shadowOrder, "shadows" ∈ st.features →
      mkDecl (optStr (List.lookup s st.shadowMap)) s ∈ linesRoot st ∧
      mkDecl (optStr (List.lookup s st.shadowMap)) s ∈ linesDark st) ∧
    (∀ d ∈ st.durOrder, "motion" ∈ st.features →
      mkDecl (optStr (List.lookup d st.durationMap)) (normalizeDuration d) ∈ linesRoot st ∧
      mkDecl (optStr (List.lookup d st.durationMap)) (normalizeDuration d) ∈ linesDark st) ∧
    (∀ e ∈ st.easeOrder, "motion" ∈ st.features →
      mkDecl (optStr (List.lookup e st.easeMap)) e ∈ linesRoot st ∧
      mkDecl (optStr (List.lookup e st.easeMap)) e ∈ linesDark st) ∧
    (∀ v ∈ orderedColorVars st, "colors" ∈ st.features →
      mkDecl v (rgbaToCss (toRgba (jsOr (varToColor st v) "#000"))) ∈ linesRoot st ∧
      mkDecl v (rgbaToCss (toDark (toRgba (jsOr (varToColor st v) "#000")) st.algorithm)) ∈
        linesDark st) := by
  refine ⟨?_, ?_, ?_, ?_, ?_, ?_, ?_, ?_⟩
  · intro v hv hfeat
    have hfs : mkDecl (optStr (List.lookup v st.fsMap)) v ∈ fsLines st := by
      unfold fsLines
      rw [if_pos (List.ne_nil_of_mem hv)]
      exact List.mem_cons_of_mem _ (List.mem_map.mpr ⟨v, hv, rfl⟩)
    have hb : mkDecl (optStr (List.lookup v st.fsMap)) v ∈ typographyRoot st := by
      unfold typographyRoot
      rw [if_pos hfeat]
      exact List.mem_append_left _ (List.mem_append_left _ (List.mem_append_left _
        (List.mem_append_right _ hfs)))
    have hd : mkDecl (optStr (List.lookup v st.fsMap)) v ∈ typographyDark st := by
      unfold typographyDark
      rw [if_pos hfeat, if_pos (Or.inl (List.ne_nil_of_mem hv))]
      exact List.mem_cons_of_mem _ (List.mem_append_left _ (List.mem_append_left _
        (List.mem_append_left _ (List.mem_map.mpr ⟨v, hv, rfl⟩))))
    constructor
    · unfold linesRoot
      exact List.mem_append_left _ (List.mem_append_left _ (List.mem_append_left _
        (List.mem_append_left _ (List.mem_append_left _ (List.mem_append_right _ hb)))))
    · unfold linesDark
      exact List.mem_append_left _ (List.mem_append_left _ (List.mem_append_right _ hd))
  · intro v hv hfeat
    have hlh : mkDecl (optStr (List.lookup v st.lhMap)) v ∈ lhLines st := by
      unfold lhLines
      rw [if_pos (List.ne_nil_of_mem hv)]
      exact List.mem_cons_of_mem _ (List.mem_map.mpr ⟨v, hv, rfl⟩)
    have hb : mkDecl (optStr (List.lookup v st.lhMap)) v ∈ typographyRoot st := by
      unfold typographyRoot
      rw [if_pos hfeat]
      exact List.mem_append_left _ (List.mem_append_left _ (List.mem_append_right _ hlh))
    have hd : mkDecl (optStr (List.lookup v st.lhMap)) v ∈ typographyDark st := by
      unfold typographyDark
      rw [if_pos hfeat, if_pos (Or.inr (Or.inl (List.ne_nil_of_mem hv)))]
      exact List.mem_cons_of_mem _ (List.mem_append_left _ (List.mem_append_left _
        (List.mem_append_right _ (List.mem_map.mpr ⟨v, hv, rfl⟩))))
    constructor
    · unfold linesRoot
      exact List.mem_append_left _ (List.mem_append_left _ (List.mem_append_left _
        (List.mem_append_left _ (List.mem_append_left _ (List.mem_append_right _ hb)))))
    · unfold linesDark
      exact List.mem_append_left _ (List.mem_append_left _ (List.mem_append_right _ hd))
  · intro v hv hfeat
    have hfw : mkDecl (optStr (List.lookup v st.fwMap)) v ∈ fwLines st := by
      unfold fwLines
      rw [if_pos (List.ne_nil_of_mem hv)]
      exact List.mem_cons_of_mem _ (List.mem_map.mpr ⟨v, hv, rfl⟩)
    have hb : mkDecl (optStr (List.lookup v st.fwMap)) v ∈ typographyRoot st := by
      unfold typographyRoot
      rw [if_pos hfeat]
      exact List.mem_append_left _ (List.mem_append_right _ hfw)
    have hd : mkDecl (optStr (List.lookup v st.fwMap)) v ∈ typographyDark st := by
      unfold typographyDark
      rw [if_pos hfeat, if_pos (Or.inr (Or.inr (Or.inl (List.ne_nil_of_mem hv))))]
      exact List.mem_cons_of_mem _ (List.mem_append_left _
        (List.mem_append_right _ (List.mem_map.mpr ⟨v, hv, rfl⟩)))
    constructor
    · unfold linesRoot
      exact List.mem_append_left _ (List.mem_append_left _ (List.mem_append_left _
        (List.mem_append_left _ (List.mem_append_left _ (List.mem_append_right _ hb)))))
    · unfold linesDark
      exact List.mem_append_left _ (List.mem_append_left _ (List.mem_append_right _ hd))
  · intro v hv hfeat
    have hls : mkDecl (optStr (List.lookup v st.lsMap)) v ∈ lsLines st := by
      unfold lsLines
      rw [if_pos (List.ne_nil_of_mem hv)]
      exact List.mem_cons_of_mem _ (List.mem_map.mpr ⟨v, hv, rfl⟩)
    have hb : mkDecl (optStr (List.lookup v st.lsMap)) v ∈ typographyRoot st := by
      unfold typographyRoot
      rw [if_pos hfeat]
      exact List.mem_append_right _ hls
    have hd : mkDecl (optStr (List.lookup v st.lsMap)) v ∈ typographyDark st := by
      unfold typographyDark
      rw [if_pos hfeat, if_pos (Or.inr (Or.inr (Or.inr (List.ne_nil_of_mem hv))))]
      exact List.mem_cons_of_mem _
        (List.mem_append_right _ (List.mem_map.mpr ⟨v, hv, rfl⟩))
    constructor
    · unfold linesRoot
      exact List.mem_append_left _ (List.mem_append_left _ (List.mem_append_left _
        (List.mem_append_left _ (List.mem_append_left _ (List.mem_append_right _ hb)))))
    · unfold linesDark
      exact List.mem_append_left _ (List.mem_append_left _ (List.mem_append_right _ hd))
  · intro s hs hfeat
    have hb : mkDecl (optStr (List.lookup s st.shadowMap)) s ∈ shadowLinesRoot st := by
      unfold shadowLinesRoot
      rw [if_pos ⟨hfeat, List.ne_nil_of_mem hs⟩]
      exact List.mem_cons_of_mem _ (List.mem_map.mpr ⟨s, hs, rfl⟩)
    have hd : mkDecl (optStr (List.lookup s st.shadowMap)) s ∈ shadowLinesDark st := by
      unfold shadowLinesDark
      rw [if_pos ⟨hfeat, List.ne_nil_of_mem hs⟩]
      exact List.mem_cons_of_mem _ (List.mem_map.mpr ⟨s, hs, rfl⟩)
    constructor
    · unfold linesRoot
      exact List.mem_append_left _ (List.mem_append_right _ hb)
    · unfold linesDark
      exact List.mem_append_left _ (List.mem_append_right _ hd)
  · intro d hd hfeat
    have hb : mkDecl (optStr (List.lookup d st.durationMap)) (normalizeDuration d) ∈
        motionLinesRoot st := by
      unfold motionLinesRoot
      rw [if_pos ⟨hfeat, Or.inl (List.ne_nil_of_mem hd)⟩, if_pos (List.ne_nil_of_mem hd)]
      exact List.mem_append_left _ (List.mem_cons_of_mem _
        (List.mem_map.mpr ⟨d, hd, rfl⟩))
    have hb2 : mkDecl (optStr (List.lookup d st.durationMap)) (normalizeDuration d) ∈
        motionLinesDark st := by
      unfold motionLinesDark
      rw [if_pos ⟨hfeat, Or.inl (List.ne_nil_of_mem hd)⟩, if_pos (List.ne_nil_of_mem hd)]
      exact List.mem_append_left _ (List.mem_cons_of_mem _
        (List.mem_map.mpr ⟨d, hd, rfl⟩))
    constructor
    · unfold linesRoot
      exact List.mem_append_right _ hb
    · unfold linesDark
      exact List.mem_append_right _ hb2
  · intro e he hfeat
    have hb : mkDecl (optStr (List.lookup e st.easeMap)) e ∈ motionLinesRoot st := by
      unfold motionLinesRoot
      rw [if_pos ⟨hfeat, Or.inr (List.ne_nil_of_mem he)⟩]
      refine List.mem_append_right _ ?_
      rw [if_pos (List.ne_nil_of_mem he)]
      exact List.mem_cons_of_mem _ (List.mem_map.mpr ⟨e, he, rfl⟩)
    have hb2 : mkDecl (optStr (List.lookup e st.easeMap)) e ∈ motionLinesDark st := by
      unfold motionLinesDark
      rw [if_pos ⟨hfeat, Or.inr (List.ne_nil_of_mem he)⟩]
      refine List.mem_append_right _ ?_
      rw [if_pos (List.ne_nil_of_mem he)]
      exact List.mem_cons_of_mem _ (List.mem_map.mpr ⟨e, he, rfl⟩)
    constructor
    · unfold linesRoot
      exact List.mem_append_right _ hb
    · unfold linesDark
      exact List.mem_append_right _ hb2
  · intro v hv hfeat
    constructor
    · have hb : mkDecl v (rgbaToCss (toRgba (jsOr (varToColor st v) "#000"))) ∈
          colorLinesRoot st := by
        unfold colorLinesRoot
        rw [if_pos hfeat]
        exact List.mem_cons_of_mem _ (List.mem_map.mpr ⟨v, hv, rfl⟩)
      unfold linesRoot
      exact List.mem_append_left _ (List.mem_append_left _ (List.mem_append_left _
        (List.mem_append_left _ (List.mem_append_left _ (List.mem_append_left _ hb)))))
    · have hb : mkDecl v (rgbaToCss (toDark (toRgba (jsOr (varToColor st v) "#000"))
          st.algorithm)) ∈ colorLinesDark st := by
        unfold colorLinesDark
        rw [if_pos hfeat]
        exact List.mem_cons_of_mem _ (List.mem_map.mpr ⟨v, hv, rfl⟩)
      unfold linesDark
      exact List.mem_append_left _ (List.mem_append_left _ (List.mem_append_left _ hb))

/-- A small but fully featured pipeline state used by concrete witnesses:
one semantic color, one font size, one spacing literal, one shadow, one
duration, one easing. -/
def sampleEmitState : EmitState where
  features := ["colors", "spacing", "borders", "radius", "shadows", "motion", "typography"]
  algorithm := "flip"
  roleOrder := [("--color-fg", some "#111111"), ("--color-bg", some "#ffffff"),
    ("--color-primary", none)]
  remainingColors := []
  ffOrder := []
  ffMap := []
  fsOrder := ["16px"]
  fsMap := [("16px", "--fs-1")]
  lhOrder := []
  lhMap := []
  fwOrder := []
  fwMap := []
  lsOrder := []
  lsMap := []
  spacingOrder := ["8px"]
  spacingMap := [("8px", "--space-1")]
  borderWidthOrder := []
  borderWidthMap := []
  radiusOrder := []
  radiusMap := []
  shadowOrder := ["0 1px 2px rgba(0, 0, 0, 0.2)"]
  shadowMap := [("0 1px 2px rgba(0, 0, 0, 0.2)", "--shadow-1")]
  durOrder := ["200ms"]
  durationMap := [("200ms", "--duration-1")]
  easeOrder := ["ease-in-out"]
  easeMap := [("ease-in-out", "--ease-1")]
  rootPx := 16

/-- Witness for C3 at `sampleEmitState`: the font-size, shadow and duration
declarations appear in both scopes, the color declaration appears with its
base value in the root scope and its dark transform in the dark scope. -/
theorem c3_dark_block_contents_witness :
    mkDecl (optStr (List.lookup "16px" sampleEmitState.fsMap)) "16px" ∈
      linesRoot sampleEmitState ∧
    mkDecl (optStr (List.lookup "16px" sampleEmitState.fsMap)) "16px" ∈
      linesDark sampleEmitState ∧
    mkDecl (optStr (List.lookup "200ms" sampleEmitState.durationMap))
      (normalizeDuration "200ms") ∈ linesDark sampleEmitState ∧
    mkDecl "--color-fg"
      (rgbaToCss (toDark (toRgba (jsOr (varToColor sampleEmitState "--color-fg") "#000"))
        sampleEmitState.algorithm)) ∈ linesDark sampleEmitState :=
  ⟨((c3_dark_block_contents sampleEmitState).1 "16px" (by decide) (by decide)).1,
   ((c3_dark_block_contents sampleEmitState).1 "16px" (by decide) (by decide)).2,
   ((c3_dark_block_contents sampleEmitState).2.2.2.2.2.1 "200ms" (by decide) (by decide)).2,
   ((c3_dark_block_contents sampleEmitState).2.2.2.2.2.2.2 "--color-fg" (by decide)
      (by decide)).2⟩

/-- A run state whose only typography candidate is a font family, as
produced by the stylesheet `p{font-family:Arial}` (palette empty, every
role unassigned). -/
def ffOnlyState : EmitState where
  features := ["colors", "spacing", "borders", "radius", "shadows", "motion", "typography"]
  algorithm := "flip"
  roleOrder := [("--color-fg", none), ("--color-bg", none), ("--color-primary", none),
    ("--color-secondary", none), ("--color-accent", none), ("--color-border", none),
    ("--color-surface-1", none), ("--color-surface-2", none), ("--color-outline", none),
    ("--color-muted", none), ("--color-disabled", none)]
  remainingColors := []
  ffOrder := ["Arial"]
  ffMap := [("Arial", "--ff-1")]
  fsOrder := []
  fsMap := []
  lhOrder := []
  lhMap := []
  fwOrder := []
  fwMap := []
  lsOrder := []
  lsMap := []
  spacingOrder := []
  spacingMap := []
  borderWidthOrder := []
  borderWidthMap := []
  radiusOrder := []
  radiusMap := []
  shadowOrder := []
  shadowMap := []
  durOrder := []
  durationMap := []
  easeOrder := []
  easeMap := []
  rootPx := 16

/-- Counterexample to C3 as stated: the font-family token `--ff-1: Arial;`
is declared in the default scope but the dark scope contains no declaration
at all besides the colors header — the dark-side font-family lines are
commented out in the script. -/
theorem c3_counterexample_font_family :
    mkDecl "--ff-1" "Arial" ∈ linesRoot ffOnlyState ∧
    mkDecl "--ff-1" "Arial" ∉ linesDark ffOnlyState ∧
    linesDark ffOnlyState = ["  /* Colors */"] := by
  refine ⟨?_, ?_, ?_⟩ <;> decide

/-- Claim C9: a spacing literal that is a pixel length whose numeric value
satisfies `px % 4 === 0` is emitted as `px / rootPx` rem, rounded to four
decimals with trailing zeros stripped; every other spacing literal (non-px
unit, unparsable, or px not divisible by 4) is emitted verbatim; and the
spacing block of the token document emits exactly `preferRem` of each
collected spacing literal. -/
theorem c9_prefer_rem_spacing (rootPx : ℚ) (lit : String) :
    (parseAnchored ["px"] false lit = none → preferRem rootPx lit = lit) ∧
    (∀ px u, parseAnchored ["px"] false lit = some (px, u) →
      (jsMod px 4 = 0 → preferRem rootPx lit = fmtQ (toFixed4 (px / rootPx)) ++ "rem") ∧
      (jsMod px 4 ≠ 0 → preferRem rootPx lit = lit)) ∧
    (∀ st : EmitState, "spacing" ∈ st.features → lit ∈ st.spacingOrder →
      mkDecl (optStr (List.lookup lit st.spacingMap)) (preferRem st.rootPx lit) ∈
        linesRoot st) := by
  refine ⟨?_, ?_, ?_⟩
  · intro h
    unfold preferRem
    rw [h]
  · intro px u h
    constructor
    · intro hdiv
      unfold preferRem
      rw [h]
      simp only [if_pos hdiv]
    · intro hdiv
      unfold preferRem
      rw [h]
      simp only [if_neg hdiv]
  · intro st hfeat hmem
    have hb : mkDecl (optStr (List.lookup lit st.spacingMap)) (preferRem st.rootPx lit) ∈
        spacingLines st := by
      unfold spacingLines
      rw [if_pos ⟨hfeat, List.ne_nil_of_mem hmem⟩]
      exact List.mem_cons_of_mem _ (List.mem_map.mpr ⟨lit, hmem, rfl⟩)
    unfold linesRoot
    exact List.mem_append_left _ (List.mem_append_left _ (List.mem_append_left _
      (List.mem_append_left _ (List.mem_append_right _ hb))))

unseal Rat.add Rat.mul Rat.inv Rat.sub Rat.ofScientific in
/-- Witness for C9: `8px` (divisible by 4) becomes `0.5rem`, `5px` stays
verbatim, and the spacing declaration for `8px` is emitted at the sample
state. -/
theorem c9_prefer_rem_spacing_witness :
    parseAnchored ["px"] false "8px" = some (8, "px") ∧
    jsMod (8 : ℚ) 4 = 0 ∧
    preferRem 16 "8px" = fmtQ (toFixed4 ((8 : ℚ) / 16)) ++ "rem" ∧
    preferRem 16 "8px" = "0.5rem" ∧
    preferRem 16 "5px" = "5px" ∧
    mkDecl (optStr (List.lookup "8px" sampleEmitState.spacingMap))
      (preferRem sampleEmitState.rootPx "8px") ∈ linesRoot sampleEmitState :=
  ⟨by decide, by decide,
    ((c9_prefer_rem_spacing 16 "8px").2.1 8 "px" (by decide)).1 (by decide),
    (((c9_prefer_rem_spacing 16 "8px").2.1 8 "px" (by decide)).1 (by decide)).trans (by decide),
    ((c9_prefer_rem_spacing 16 "5px").2.1 5 "px" (by decide)).2 (by decide),
    (c9_prefer_rem_spacing sampleEmitState.rootPx "8px").2.2 sampleEmitState (by decide)
      (by decide)⟩

/-! ### Naming engine (`makeNameFactory`, `litHash`) -/

theorem digitChar_toNat (d : ℕ) (h : d < 10) : (Char.ofNat (48 + d)).toNat = 48 + d := by
  interval_cases d <;> decide

theorem natDecAux_val (fuel n : ℕ) (h : n ≤ fuel) :
    List.foldl (fun a c => 10 * a + (c.toNat - 48)) 0 (natDecAux fuel n) = n := by
  induction fuel generalizing n with
  | zero =>
    interval_cases n
    decide
  | succ fuel ih =>
    unfold natDecAux
    by_cases h0 : n = 0
    · simp [h0]
    · rw [if_neg h0, List.foldl_append]
      have hdiv : n / 10 ≤ fuel := by
        have := Nat.div_lt_self (Nat.pos_of_ne_zero h0) (show 1 < 10 by norm_num)
        omega
      rw [ih (n / 10) hdiv]
      simp only [List.foldl_cons, List.foldl_nil]
      rw [digitChar_toNat (n % 10) (Nat.mod_lt _ (by norm_num))]
      omega

/-- Decimal value of a decimal string; left inverse of `natDec`. -/
def strVal (s : String) : ℕ := digitsVal s.data

theorem strVal_natDec (n : ℕ) : strVal (natDec n) = n := by
  unfold natDec
  by_cases h : n = 0
  · subst h
    decide
  · rw [if_neg h]
    exact natDecAux_val n n le_rfl

theorem natDec_injective : Function.Injective natDec := by
  intro m n h
  have hm := strVal_natDec m
  rw [h, strVal_natDec] at hm
  exact hm.symm

/-- The j-th candidate tried by the collision loop of `makeNameFactory`:
the generated name itself, then `name-2`, `name-3`, …. -/
def nameCand (name : String) (j : ℕ) : String :=
  if j = 0 then name else name ++ "-" ++ natDec (j + 1)

theorem natDec_length_pos (n : ℕ) : 0 < (natDec n).length := by
  unfold natDec
  by_cases h : n = 0
  · rw [if_pos h]
    decide
  · rw [if_neg h]
    show 0 < (natDecAux n n).length
    cases n with
    | zero => exact absurd rfl h
    | succ m =>
      unfold natDecAux
      rw [if_neg h, List.length_append]
      simp

theorem nameCand_injective (name : String) : Function.Injective (nameCand name) := by
  intro j k h
  unfold nameCand at h
  by_cases hj : j = 0 <;> by_cases hk : k = 0
  · rw [hj, hk]
  · rw [if_pos hj, if_neg hk] at h
    have hlen := congrArg String.length h
    rw [String.length_append, String.length_append] at hlen
    have hpos := natDec_length_pos (k + 1)
    have hone : ("-" : String).length = 1 := rfl
    omega
  · rw [if_neg hj, if_pos hk] at h
    have hlen := congrArg String.length h
    rw [String.length_append, String.length_append] at hlen
    have hpos := natDec_length_pos (j + 1)
    have hone : ("-" : String).length = 1 := rfl
    omega
  · rw [if_neg hj, if_neg hk] at h
    have hd := congrArg String.data h
    rw [String.data_append, String.data_append, String.data_append, String.data_append,
      List.append_assoc, List.append_assoc] at hd
    have := List.append_cancel_left hd
    have := List.append_cancel_left this
    have := natDec_injective (String.ext this)
    omega

/-- The collision loop of `makeNameFactory`, `while (used.has(out)) out =
name-n++`, returns the first candidate not in `used`.  The candidates are
pairwise distinct, so among the first `used.length + 1` of them one is
always fresh; the unbounded loop is therefore modelled by a search over
that finite prefix, which it agrees with. -/
def freshFrom (used : List String) (name : String) : String :=
  (((List.range (used.length + 1)).map (nameCand name)).find?
    (fun s => !(used.contains s))).getD name

theorem freshFrom_not_mem (used : List String) (name : String) :
    freshFrom used name ∉ used := by
  unfold freshFrom
  rcases hf : ((List.range (used.length + 1)).map (nameCand name)).find?
      (fun s => !(used.contains s)) with _ | r
  · exfalso
    rw [List.find?_eq_none] at hf
    have hsub : (List.range (used.length + 1)).map (nameCand name) ⊆ used := by
      intro x hx
      have hb := hf x hx
      rcases hbv : used.contains x with _ | _
      · rw [hbv] at hb
        simp at hb
      · exact List.elem_iff.mp hbv
    have hnd : ((List.range (used.length + 1)).map (nameCand name)).Nodup :=
      List.Nodup.map (nameCand_injective name) (List.nodup_range _)
    have hle := (List.subperm_of_subset hnd hsub).length_le
    rw [List.length_map, List.length_range] at hle
    omega
  · have hp := List.find?_some hf
    simp only [Option.getD_some]
    intro hmem
    have hc : used.contains r = true := List.elem_iff.mpr hmem
    rw [hc] at hp
    simp at hp

/-- One run of a `makeNameFactory` closure over the ordered literals of a
category: each call produces the base name (`--prefix-(i+1)` in sequential
mode, `--prefix-<hash>` in stable mode — the base-name function is a
parameter so the result covers every hash function, including colliding
ones), resolves collisions against `used` with the numeric-suffix loop, and
adds the result to `used`. -/
def factoryGo (base : String → ℕ → String) : List String → ℕ → List String → List String
  | [], _, _ => []
  | lit :: more, i, used =>
    let out := freshFrom used (base lit i)
    out :: factoryGo base more (i + 1) (out :: used)

/-- The names produced for a category's ordered literal list, starting from
an empty `used` set as in `makeNameFactory`. -/
def factoryNames (base : String → ℕ → String) (lits : List String) : List String :=
  factoryGo base lits 0 []

theorem factoryGo_fresh (base : String → ℕ → String) :
    ∀ (lits : List String) (i : ℕ) (used : List String),
      (factoryGo base lits i used).Nodup ∧ ∀ x ∈ factoryGo base lits i used, x ∉ used := by
  intro lits
  induction lits with
  | nil => intro i used; exact ⟨List.nodup_nil, by intro x hx; cases hx⟩
  | cons lit more ih =>
    intro i used
    obtain ⟨hnd, hfresh⟩ := ih (i + 1) (freshFrom used (base lit i) :: used)
    refine ⟨?_, ?_⟩
    · unfold factoryGo
      refine List.Nodup.cons ?_ hnd
      intro hmem
      exact hfresh _ hmem (List.mem_cons_self _ _)
    · intro x hx
      unfold factoryGo at hx
      rcases List.mem_cons.mp hx with hx | hx
      · rw [hx]
        exact freshFrom_not_mem used (base lit i)
      · intro hmem
        exact hfresh x hx (List.mem_cons_of_mem _ hmem)

/-- Claim C8: within any one category and one run, every token name the
factory produces is unique, whatever base-name scheme is used — sequential
numbering or any content hash, even one on which two distinct literals
collide; a collision with an existing name is resolved by appending `-2`,
`-3`, … until the name is fresh.  The two concrete runs show the sequential
mode and a full hash collision resolved by the `-2` suffix. -/
theorem c8_naming_uniqueness :
    (∀ (base : String → ℕ → String) (lits : List String), (factoryNames base lits).Nodup) ∧
    factoryNames (fun _ _ => "--x-deadbeef") ["#111111", "#222222"] =
      ["--x-deadbeef", "--x-deadbeef-2"] ∧
    factoryNames (fun _ i => "--space-" ++ natDec (i + 1)) ["8px", "16px"] =
      ["--space-1", "--space-2"] := by
  refine ⟨?_, by decide, by decide⟩
  intro base lits
  exact (factoryGo_fresh base lits 0 []).1

/-! ### Category ordering (spacing, border widths, radii) -/

/-- Model of `lenToPx` from the script: pixel approximation of a length literal for
ordering (`^(-?\d*\.?\d+)(px|rem|em|%|vh|vw)$`, case-sensitive, no `ch`);
unparsable literals yield 0, `%`/`vh`/`vw` return the bare number (used only
for relative ordering), `rem`/`em` scale by the configured root/context
size. -/
def lenToPx (rootPx contextPx : ℚ) (lit : String) : ℚ :=
  match parseAnchored ["px", "rem", "em", "%", "vh", "vw"] false lit with
  | none => 0
  | some (n, u) =>
    if u = "px" then n
    else if u = "rem" then n * rootPx
    else if u = "em" then n * contextPx
    else n

/-- Non-strict order corresponding to the spacing comparator
`(a, b) => b.count - a.count || lenToPx(b) - lenToPx(a)`: descending count,
ties by descending pixel size. -/
def spacingLe (rootPx contextPx : ℚ) (a b : String × ℕ) : Prop :=
  b.2 < a.2 ∨ (b.2 = a.2 ∧ lenToPx rootPx contextPx b.1 ≤ lenToPx rootPx contextPx a.1)

/-- Non-strict order corresponding to the border-width and radius comparator
`(a, b) => b.count - a.count || lenToPx(a) - lenToPx(b)`: descending count,
ties by ascending pixel size. -/
def ascPxLe (rootPx contextPx : ℚ) (a b : String × ℕ) : Prop :=
  b.2 < a.2 ∨ (b.2 = a.2 ∧ lenToPx rootPx contextPx a.1 ≤ lenToPx rootPx contextPx b.1)

instance (rootPx contextPx : ℚ) : DecidableRel (spacingLe rootPx contextPx) := fun _ _ => by
  unfold spacingLe
  infer_instance

instance (rootPx contextPx : ℚ) : DecidableRel (ascPxLe rootPx contextPx) := fun _ _ => by
  unfold ascPxLe
  infer_instance

instance (rootPx contextPx : ℚ) : IsTotal (String × ℕ) (spacingLe rootPx contextPx) := by
  constructor
  intro a b
  unfold spacingLe
  rcases Nat.lt_trichotomy a.2 b.2 with h | h | h
  · exact Or.inr (Or.inl h)
  · rcases le_total (lenToPx rootPx contextPx b.1) (lenToPx rootPx contextPx a.1) with hp | hp
    · exact Or.inl (Or.inr ⟨h.symm, hp⟩)
    · exact Or.inr (Or.inr ⟨h, hp⟩)
  · exact Or.inl (Or.inl h)

instance (rootPx contextPx : ℚ) : IsTrans (String × ℕ) (spacingLe rootPx contextPx) := by
  constructor
  intro a b c hab hbc
  rcases hab with h1 | h1 <;> rcases hbc with h2 | h2
  · exact Or.inl (lt_trans h2 h1)
  · exact Or.inl (h2.1 ▸ h1)
  · exact Or.inl (h1.1 ▸ h2)
  · exact Or.inr ⟨h2.1.trans h1.1, h2.2.trans h1.2⟩

instance (rootPx contextPx : ℚ) : IsTotal (String × ℕ) (ascPxLe rootPx contextPx) := by
  constructor
  intro a b
  unfold ascPxLe
  rcases Nat.lt_trichotomy a.2 b.2 with h | h | h
  · exact Or.inr (Or.inl h)
  · rcases le_total (lenToPx rootPx contextPx a.1) (lenToPx rootPx contextPx b.1) with hp | hp
    · exact Or.inl (Or.inr ⟨h.symm, hp⟩)
    · exact Or.inr (Or.inr ⟨h, hp⟩)
  · exact Or.inl (Or.inl h)

instance (rootPx contextPx : ℚ) : IsTrans (String × ℕ) (ascPxLe rootPx contextPx) := by
  constructor
  intro a b c hab hbc
  rcases hab with h1 | h1 <;> rcases hbc with h2 | h2
  · exact Or.inl (lt_trans h2 h1)
  · exact Or.inl (h2.1 ▸ h1)
  · exact Or.inl (h1.1 ▸ h2)
  · exact Or.inr ⟨h2.1.trans h1.1, h1.2.trans h2.2⟩

/-- Model of `spacingOrder` from the script: the spacing table entries sorted by the
stable comparator sort, projected to their literals. -/
def spacingOrderOf (rootPx contextPx : ℚ) (tbl : List (String × ℕ)) : List String :=
  (tbl.insertionSort (spacingLe rootPx contextPx)).map Prod.fst

/-- Model of `borderWidthOrder` from the script (descending count, ascending px). -/
def borderWidthOrderOf (rootPx contextPx : ℚ) (tbl : List (String × ℕ)) : List String :=
  (tbl.insertionSort (ascPxLe rootPx contextPx)).map Prod.fst

/-- Model of `radiusOrder` from the script (descending count, ascending px). -/
def radiusOrderOf (rootPx contextPx : ℚ) (tbl : List (String × ℕ)) : List String :=
  (tbl.insertionSort (ascPxLe rootPx contextPx)).map Prod.fst

/-- Claim C2 (amended): for every collected candidate table, spacing
candidates are ordered by descending occurrence count with ties broken by
descending pixel-equivalent size (as computed by `lenToPx`), while
border-width and radius candidates are ordered by descending count with
ties broken by ASCENDING pixel-equivalent size. -/
theorem c2_category_sort_orders (rootPx contextPx : ℚ)
    (spa bor rad : List (String × ℕ)) :
    ((spa.insertionSort (spacingLe rootPx contextPx)).Pairwise fun a b =>
      b.2 < a.2 ∨ (b.2 = a.2 ∧ lenToPx rootPx contextPx b.1 ≤ lenToPx rootPx contextPx a.1)) ∧
    ((bor.insertionSort (ascPxLe rootPx contextPx)).Pairwise fun a b =>
      b.2 < a.2 ∨ (b.2 = a.2 ∧ lenToPx rootPx contextPx a.1 ≤ lenToPx rootPx contextPx b.1)) ∧
    ((rad.insertionSort (ascPxLe rootPx contextPx)).Pairwise fun a b =>
      b.2 < a.2 ∨ (b.2 = a.2 ∧ lenToPx rootPx contextPx a.1 ≤ lenToPx rootPx contextPx b.1)) ∧
    spacingOrderOf rootPx contextPx spa =
      (spa.insertionSort (spacingLe rootPx contextPx)).map Prod.fst ∧
    borderWidthOrderOf rootPx contextPx bor =
      (bor.insertionSort (ascPxLe rootPx contextPx)).map Prod.fst ∧
    radiusOrderOf rootPx contextPx rad =
      (rad.insertionSort (ascPxLe rootPx contextPx)).map Prod.fst := by
  refine ⟨?_, ?_, ?_, rfl, rfl, rfl⟩
  · exact List.sorted_insertionSort (spacingLe rootPx contextPx) spa
  · exact List.sorted_insertionSort (ascPxLe rootPx contextPx) bor
  · exact List.sorted_insertionSort (ascPxLe rootPx contextPx) rad

unseal Rat.add Rat.mul Rat.inv Rat.sub Rat.ofScientific in
/-- Counterexample to C2 as stated: with two border-width literals `1px` and
`2px` of equal count, the produced order is `[1px, 2px]` — ascending pixel
size — although the claim demands descending pixel size (`[2px, 1px]`); the
radius order behaves the same way. -/
theorem c2_counterexample_border_radius_ascending :
    borderWidthOrderOf 16 16 [("1px", 1), ("2px", 1)] = ["1px", "2px"] ∧
    radiusOrderOf 16 16 [("4px", 1), ("8px", 1)] = ["4px", "8px"] ∧
    lenToPx 16 16 "1px" < lenToPx 16 16 "2px" ∧
    lenToPx 16 16 "4px" < lenToPx 16 16 "8px" := by
  refine ⟨?_, ?_, ?_, ?_⟩ <;> decide

unseal Rat.add Rat.mul Rat.inv Rat.sub Rat.ofScientific in
/-- Witness for C7: the unparsable token `10q` and the unit-mismatched token
`10px` under a `rem→px` pair both pass through unchanged. -/
theorem c7_conversion_failure_policy_witness :
    parseTokenNumUnit "10q" = none ∧
    convertLengthUnitToken "10q" "rem" "px" defaultOpts = "10q" ∧
    parseTokenNumUnit "10px" = some (10, "px") ∧
    convertLengthUnitToken "10px" "rem" "em" defaultOpts = "10px" :=
  ⟨by decide,
    c7_conversion_failure_policy.1 "10q" "rem" "px" defaultOpts (by decide),
    by decide,
    c7_conversion_failure_policy.2.1 "10px" "rem" "em" defaultOpts 10 "px" (by decide) (by decide)⟩

/-! ### Semantic role assignment

The scoring formulas use `Math.log1p` and the WCAG luminance power curve,
so they are modelled over `ℝ`; the picks themselves never need the scores
to be computed when a candidate pool is a singleton. -/

/-- WCAG 2.0 relative luminance (`relLuminance` from the script). -/
noncomputable def relLuminance (c : Rgba) : ℝ :=
  let nl := fun (ch : ℚ) =>
    let x : ℝ := (ch : ℝ) / 255
    if x ≤ 0.03928 then x / 12.92 else ((x + 0.055) / 1.055) ^ (2.4 : ℝ)
  0.2126 * nl c.r + 0.7152 * nl c.g + 0.0722 * nl c.b

/-- Model of `hslDist` from the script: Euclidean distance over
`(Δh/360, Δs, Δl)`. -/
noncomputable def hslDist (a b : Hsla) : ℝ :=
  let dh : ℝ := |((a.h : ℝ)) - ((b.h : ℝ))| / 360
  let ds : ℝ := |((a.s : ℝ)) - ((b.s : ℝ))|
  let dl : ℝ := |((a.l : ℝ)) - ((b.l : ℝ))|
  Real.sqrt (dh * dh + ds * ds + dl * dl)

/-- One entry of the `byColor` table: literal, occurrence count, property
counters and selector history. -/
structure ColorEntry where
  lit : String
  count : ℕ
  props : List (String × ℕ)
  selectors : List String

/-- Model of `byColor.get(c)` (the table never misses for palette members; a default
empty entry keeps the accessor total). -/
def entryOf (t : List ColorEntry) (c : String) : ColorEntry :=
  (t.find? (fun e => e.lit == c)).getD ⟨c, 0, [], []⟩

/-- Saturation of a palette literal (`n.sat = rgbaToHsl(toRgba(k)).s`). -/
def satOf (c : String) : ℚ := (rgbaToHsl (toRgba c)).s

/-- Cached HSL of a palette literal (`n.hsl`). -/
def hslOf (c : String) : Hsla := rgbaToHsl (toRgba c)

/-- Cached luminance of a palette literal (`n.lum`). -/
noncomputable def lumOf (c : String) : ℝ := relLuminance (toRgba c)

/-- Occurrence count of a palette literal. -/
def countOf (t : List ColorEntry) (c : String) : ℕ := (entryOf t c).count

/-- Model of `usedInProp` from the script: `byColor.get(c).props.has(name)`. -/
def usedInProp (t : List ColorEntry) (c : String) (name : String) : Bool :=
  ((entryOf t c).props.lookup name).isSome

/-- Model of `usedInSelector` from the script: some originating selector matches. -/
def usedInSelector (t : List ColorEntry) (c : String) (re : String → Bool) : Bool :=
  (entryOf t c).selectors.any re

/-- Substring occurrence (plain, case-sensitive regex atom). -/
def subOccurs (pat : List Char) : List Char → Bool
  | [] => pat.isEmpty
  | c :: rest => if (c :: rest).take pat.length = pat then true else subOccurs pat rest

/-- Substring test on strings. -/
def containsSub (pat s : String) : Bool := subOccurs pat.data s.data

/-- Scan for `pat` with `\b` on both sides; `prevW` is the word-ness of the
previous character. -/
def containsWordGo (pat : List Char) : Bool → List Char → Bool
  | _, [] => false
  | prevW, c :: rest =>
    if !prevW && ((c :: rest).take pat.length == pat) &&
        (match (c :: rest).drop pat.length with
          | [] => true
          | d :: _ => !wordChar d) then true
    else containsWordGo pat (wordChar c) rest

/-- Whole-word occurrence, modelling `\bpat\b` for a word-character
pattern (text never starts mid-word at position 0). -/
def containsWord (pat s : String) : Bool := containsWordGo pat.data false s.data

/-- The selector pattern `/\bbody\b/`. -/
def bodyReTest (s : String) : Bool := containsWord "body" s

/-- The selector pattern `/\ba\b|button|\.button|:hover/i`. -/
def linkReTest (s : String) : Bool :=
  let t := toLowerStr s
  containsWord "a" t || containsSub "button" t || containsSub ".button" t ||
    containsSub ":hover" t

/-- The selector pattern `/focus|:focus|skip-link|screen-reader/`. -/
def focusReTest (s : String) : Bool :=
  containsSub "focus" s || containsSub ":focus" s || containsSub "skip-link" s ||
    containsSub "screen-reader" s

/-- The selector pattern `/disabled/`. -/
def disabledReTest (s : String) : Bool := containsSub "disabled" s

/-- Model of `isGrayish`: saturation at most 0.1. -/
def isGrayishB (c : String) : Bool := decide (satOf c ≤ 0.1)

/-- Model of `isSaturated`: saturation at least 0.22. -/
def isSaturatedB (c : String) : Bool := decide (satOf c ≥ 0.22)

/-- Model of `distinct(c, roles[r])` from the script: vacuously true when the role
is unassigned, otherwise HSL distance above 0.18. -/
def distinctFrom (c : String) (r : Option String) : Prop :=
  match r with
  | none => True
  | some b => hslDist (hslOf c) (hslOf b) > 0.18

noncomputable instance (c : String) (r : Option String) : Decidable (distinctFrom c r) :=
  match r with
  | none => isTrue trivial
  | some b => inferInstanceAs (Decidable (hslDist (hslOf c) (hslOf b) > 0.18))

/-- Foreground score. -/
noncomputable def fgScore (t : List ColorEntry) (c : String) : ℝ :=
  (1 - lumOf c) * 2.0 + Real.log (1 + (countOf t c : ℝ)) * 0.4 +
    (if usedInProp t c "color" then 1.0 else 0) +
    (if usedInSelector t c bodyReTest then 2.0 else 0)

/-- Foreground fallback score (unfiltered palette). -/
noncomputable def fgFallbackScore (t : List ColorEntry) (c : String) : ℝ :=
  1 - lumOf c + Real.log (1 + (countOf t c : ℝ)) * 0.3

/-- Background score. -/
noncomputable def bgScore (t : List ColorEntry) (c : String) : ℝ :=
  lumOf c * 2.0 + Real.log (1 + (countOf t c : ℝ)) * 0.3 +
    (if usedInProp t c "background" ∨ usedInProp t c "background-color" then 0.7 else 0) +
    (if usedInSelector t c bodyReTest then 2.0 else 0)

/-- Primary score. -/
noncomputable def primaryScore (t : List ColorEntry) (c : String) : ℝ :=
  (satOf c : ℝ) * 2.0 + Real.log (1 + (countOf t c : ℝ)) * 0.4 +
    (if usedInSelector t c linkReTest then 1.5 else 0) +
    (if usedInProp t c "color" ∨ usedInProp t c "background" ∨ usedInProp t c "border" ∨
        usedInProp t c "border-color" then 0.7 else 0) +
    (if lumOf c > 0.2 ∧ lumOf c < 0.9 then 0.3 else -0.2)

/-- Secondary score. -/
noncomputable def secondaryScore (t : List ColorEntry) (c : String) : ℝ :=
  (satOf c : ℝ) + Real.log (1 + (countOf t c : ℝ)) * 0.3

/-- Accent score. -/
noncomputable def accentScore (t : List ColorEntry) (c : String) : ℝ :=
  (satOf c : ℝ) + Real.log (1 + (countOf t c : ℝ)) * 0.25

/-- Border score. -/
noncomputable def borderScore (t : List ColorEntry) (c : String) : ℝ :=
  (1 - |lumOf c - 0.88|) * 1.5 +
    (if usedInProp t c "border" ∨ usedInProp t c "border-color" then 1.0 else 0) +
    Real.log (1 + (countOf t c : ℝ)) * 0.2

/-- Surface-1 score. -/
noncomputable def surface1Score (t : List ColorEntry) (c : String) : ℝ :=
  (1 - |lumOf c - 0.96|) * 1.4 +
    (if usedInProp t c "background" ∨ usedInProp t c "background-color" then 0.6 else 0) +
    Real.log (1 + (countOf t c : ℝ)) * 0.2

/-- Surface-2 score. -/
noncomputable def surface2Score (t : List ColorEntry) (c : String) : ℝ :=
  (1 - |lumOf c - 0.9|) * 1.2 +
    (if usedInProp t c "background" ∨ usedInProp t c "background-color" then 0.5 else 0) +
    Real.log (1 + (countOf t c : ℝ)) * 0.2

/-- Outline score. -/
noncomputable def outlineScore (t : List ColorEntry) (c : String) : ℝ :=
  (if usedInProp t c "outline" then 2.0 else 0) +
    (if usedInSelector t c focusReTest then 1.0 else 0) +
    (if isGrayishB c then 0.3 else 0) - |lumOf c - 0.75|

/-- Muted score. -/
noncomputable def mutedScore (t : List ColorEntry) (c : String) : ℝ :=
  1 - |lumOf c - 0.5| + Real.log (1 + (countOf t c : ℝ)) * 0.1

/-- Disabled score. -/
noncomputable def disabledScore (t : List ColorEntry) (c : String) : ℝ :=
  (if usedInSelector t c disabledReTest then 1.5 else 0) + 1 - |lumOf c - 0.6|

/-- Model of `pickBest(cands, scoreFn)` from the script: rank by descending score
with the stable sort and take the first; `null` on an empty pool.  The
model sorts the candidates directly with the non-strict comparator
relation, which equals the script's sort-of-pairs followed by the `.c`
projection. -/
noncomputable def pickBest (cands : List String) (score : String → ℝ) : Option String :=
  (cands.insertionSort (fun a b => score b ≤ score a)).head?

/-- Model of `pickBest(cands, scoreFn, used)`: identical choice, and the pick is
ADDED to the `used` set — `pickBest` only ever inserts into `markUsed` and
never reads it, so the set has no influence on any pool. -/
noncomputable def pickBestMark (cands : List String) (score : String → ℝ)
    (used : List String) : Option String × List String :=
  match (cands.insertionSort (fun a b => score b ≤ score a)).head? with
  | none => (none, used)
  | some pick => (some pick, pick :: used)

/-- The eleven semantic roles, in the script's assignment order. -/
structure RoleAssignment where
  fg : Option String
  bg : Option String
  primary : Option String
  secondary : Option String
  accent : Option String
  border : Option String
  surface1 : Option String
  surface2 : Option String
  outline : Option String
  muted : Option String
  disabled : Option String

/-- The role-assignment block of the script, with the `used` set threaded
exactly as the mutation order does it.  Note that no candidate pool below
filters on the `used` set: the pools are `palette` filtered only by
`isGrayish`/`isSaturated`/`distinct`, as in the source. -/
noncomputable def assignRoles (t : List ColorEntry) : RoleAssignment × List String :=
  let palette := t.map ColorEntry.lit
  let fg := (pickBest (palette.filter isGrayishB) (fgScore t)).or
    (pickBest palette (fgFallbackScore t))
  let r1 := pickBestMark palette (bgScore t) []
  let r2 := pickBestMark (palette.filter isSaturatedB) (primaryScore t) r1.2
  let r3 := pickBestMark
    (palette.filter fun c => isSaturatedB c && decide (distinctFrom c r2.1))
    (secondaryScore t) r2.2
  let r4 := pickBestMark
    (palette.filter fun c =>
      isSaturatedB c && decide (distinctFrom c r2.1) && decide (distinctFrom c r3.1))
    (accentScore t) r3.2
  let r5 := pickBestMark (palette.filter isGrayishB) (borderScore t) r4.2
  let r6 := pickBestMark (palette.filter isGrayishB) (surface1Score t) r5.2
  let r7 := pickBestMark (palette.filter isGrayishB) (surface2Score t) r6.2
  let r8 := pickBestMark palette (outlineScore t) r7.2
  let outline := r8.1.or r5.1
  let r9 := pickBestMark (palette.filter isGrayishB) (mutedScore t) r8.2
  let r10 := pickBestMark (palette.filter isGrayishB) (disabledScore t) r9.2
  let disabled := r10.1.or r9.1
  (⟨fg, r1.1, r2.1, r3.1, r4.1, r5.1, r6.1, r7.1, outline, r9.1, disabled⟩, r10.2)

/-- The color table produced by a stylesheet whose only color is the gray
`#888888`, e.g. `body{background:#888888} .card{border-color:#888888}`. -/
def c1Table : List ColorEntry :=
  [⟨"#888888", 2, [("background", 1), ("border-color", 1)], ["body", ".card"]⟩]

unseal Rat.add Rat.mul Rat.inv Rat.sub Rat.ofScientific in
/-- Claim C1 is right about the intent and wrong about the code: a color
chosen for one role is NOT excluded from the candidate pools of subsequent
roles, because `pickBest` only inserts into the `used` set and never reads
it.  On a palette with the single gray `#888888`, the background role picks
it (adding it to `used`), and the border, surface-1, surface-2 and muted
roles — whose pools the claim says exclude used colors — all pick the very
same literal afterwards. -/
theorem c1_used_color_reassigned :
    (assignRoles c1Table).1.bg = some "#888888" ∧
    (assignRoles c1Table).1.border = some "#888888" ∧
    (assignRoles c1Table).1.surface1 = some "#888888" ∧
    (assignRoles c1Table).1.surface2 = some "#888888" ∧
    (assignRoles c1Table).1.muted = some "#888888" := by
  have hgray : isGrayishB "#888888" = true := by decide
  have hfil : List.filter isGrayishB ["#888888"] = ["#888888"] := by
    simp [List.filter, hgray]
  refine ⟨?_, ?_, ?_, ?_, ?_⟩ <;>
    simp [assignRoles, c1Table, pickBestMark, hfil, List.insertionSort, List.orderedInsert]

end TokenizeCss
